import Mathlib

/-!
# Verification of the TM1637Display32 non-blocking display driver

A shallow embedding of `src/TM1637Display32.cpp` (ESP32/RP2040 build:
`BIT_DELAY_US = 50`, pins released via `INPUT_PULLUP`), together with proofs
of the specification's testable properties.

The embedding models:
* the two GPIO lines as tagged pins, each GPIO call as an explicit event;
* the driver object as a structure `St` with the same fields as the C++ class
  (`uint8_t` fields are `Nat`, reduced mod 256 / mod 2^32 exactly where the
  C code can overflow);
* `writeBit`, `startCondition`, `stopCondition` and `update` as pure
  functions `St → St × List Ev × Bool`;
* `setSegments` as a list of atomic actions (one per C++ statement), so that
  preemption of the setup sequence at any intermediate point can be stated;
* the content-encoder functions (`showNumberBaseEx`, `showDots`,
  `displayCharAndNumber`, `encodeDigit`, `charToSeg`) as pure functions on
  digit arrays.
-/

namespace TM1637

/-- The two bus lines of the TM1637 interface. -/
inductive Pin
  | clk
  | dio
deriving DecidableEq, Repr

/-- Arduino pin modes used by the driver.  The ESP32/RP2040 build always
releases a line with `INPUT_PULLUP`. -/
inductive PMode
  | output
  | inputPullup
deriving DecidableEq, Repr

/-- Logic levels written by `digitalWrite`. -/
inductive Level
  | low
  | high
deriving DecidableEq, Repr

/-- One observable GPIO call. `delayMicroseconds` performs no pin mutation and
is therefore not an event. -/
inductive Ev
  | pinMode (p : Pin) (m : PMode)
  | digitalWrite (p : Pin) (v : Level)
deriving DecidableEq, Repr

/-- `pinMode(p, OUTPUT); digitalWrite(p, LOW);` — actively drive a line low. -/
def driveLowEvs (p : Pin) : List Ev :=
  [Ev.pinMode p PMode.output, Ev.digitalWrite p Level.low]

/-- `pinMode(p, INPUT_PULLUP);` — release a line (pull-up takes it high). -/
def releaseEvs (p : Pin) : List Ev :=
  [Ev.pinMode p PMode.inputPullup]

/-- Driver state: the member variables of class `TM1637Display32`.
`m_counter = 255` is the idle sentinel. -/
structure St where
  m_brightness : Nat
  m_segments : Fin 4 → Nat
  m_length : Nat
  m_pos : Nat
  m_counter : Nat
  m_phase : Nat
  m_byte : Nat
  m_bit_count : Nat
  m_currentSegment : Nat
  m_lastUpdateMicros : Nat
  m_transmissionStartMillis : Nat

/-- 2^32: the modulus of `unsigned long` on the 32-bit targets. -/
def M32 : Nat := 4294967296

/-- Wraparound-safe unsigned subtraction `a - b` on 32-bit unsigned values
(the C expressions `millis() - m_transmissionStartMillis` and
`micros() - m_lastUpdateMicros`). -/
def wsub (a b : Nat) : Nat := (a + M32 - b % M32) % M32

/-- Guarded read of the 4-byte segment array (`m_segments[i]`). -/
def segGet (s : St) (i : Nat) : Nat :=
  if h : i < 4 then s.m_segments ⟨i, h⟩ else 0

/-- `TM1637Display32::writeBit` — emit one sub-step of the 8-bits-plus-ACK
byte writer; returns `true` when the byte (including the ACK slot) is done.
The `switch (m_counter)` is rendered as an `if`-chain; counters in these
branches are at most 6, so `m_counter++` cannot wrap. -/
def writeBitF (s : St) : St × List Ev × Bool :=
  if s.m_counter = 0 then
    ({ s with m_counter := s.m_counter + 1 }, driveLowEvs Pin.clk, false)
  else if s.m_counter = 1 then
    if s.m_byte &&& 1 ≠ 0 then
      ({ s with m_counter := s.m_counter + 1 }, releaseEvs Pin.dio, false)
    else
      ({ s with m_counter := s.m_counter + 1 }, driveLowEvs Pin.dio, false)
  else if s.m_counter = 2 then
    if s.m_bit_count + 1 < 8 then
      ({ s with
          m_byte := s.m_byte >>> 1
          m_bit_count := s.m_bit_count + 1
          m_counter := 0 },
        releaseEvs Pin.clk, false)
    else
      ({ s with
          m_byte := s.m_byte >>> 1
          m_bit_count := s.m_bit_count + 1
          m_counter := s.m_counter + 1 },
        releaseEvs Pin.clk, false)
  else if s.m_counter = 3 then
    ({ s with m_counter := s.m_counter + 1 }, driveLowEvs Pin.clk, false)
  else if s.m_counter = 4 then
    ({ s with m_counter := s.m_counter + 1 }, releaseEvs Pin.dio, false)
  else if s.m_counter = 5 then
    ({ s with m_counter := s.m_counter + 1 }, releaseEvs Pin.clk, false)
  else if s.m_counter = 6 then
    ({ s with m_bit_count := 0 }, driveLowEvs Pin.clk, true)
  else (s, [], false)

/-- `TM1637Display32::startCondition` — DIO falls while CLK is released. -/
def startConditionF (s : St) : St × List Ev × Bool :=
  if s.m_counter = 0 then
    ({ s with m_counter := s.m_counter + 1 }, releaseEvs Pin.clk, false)
  else if s.m_counter = 1 then
    ({ s with m_counter := s.m_counter + 1 }, releaseEvs Pin.dio, false)
  else if s.m_counter = 2 then
    (s, driveLowEvs Pin.dio, true)
  else (s, [], false)

/-- `TM1637Display32::stopCondition` — DIO rises while CLK is released. -/
def stopConditionF (s : St) : St × List Ev × Bool :=
  if s.m_counter = 0 then
    ({ s with m_counter := s.m_counter + 1 }, driveLowEvs Pin.clk, false)
  else if s.m_counter = 1 then
    ({ s with m_counter := s.m_counter + 1 }, driveLowEvs Pin.dio, false)
  else if s.m_counter = 2 then
    ({ s with m_counter := s.m_counter + 1 }, releaseEvs Pin.clk, false)
  else if s.m_counter = 3 then
    (s, releaseEvs Pin.dio, true)
  else (s, [], false)

/-- The phase dispatcher of `TM1637Display32::update` (the `switch (m_phase)`
after the idle, watchdog and rate-limit gates). -/
def stepMachine (s : St) : St × List Ev × Bool :=
  if s.m_phase = 0 then
    if (writeBitF s).2.2 then
      ({ (writeBitF s).1 with m_phase := 1, m_counter := 0 },
        (writeBitF s).2.1, false)
    else ((writeBitF s).1, (writeBitF s).2.1, false)
  else if s.m_phase = 1 then
    if (stopConditionF s).2.2 then
      ({ (stopConditionF s).1 with
          m_phase := 2
          m_counter := 0
          m_byte := 0xC0 + ((stopConditionF s).1.m_pos &&& 0x03) },
        (stopConditionF s).2.1, false)
    else ((stopConditionF s).1, (stopConditionF s).2.1, false)
  else if s.m_phase = 2 then
    if (startConditionF s).2.2 then
      ({ (startConditionF s).1 with m_phase := 3, m_counter := 0 },
        (startConditionF s).2.1, false)
    else ((startConditionF s).1, (startConditionF s).2.1, false)
  else if s.m_phase = 3 then
    if (writeBitF s).2.2 then
      ({ (writeBitF s).1 with
          m_phase := 4
          m_counter := 0
          m_currentSegment := 0
          m_byte := if 0 < (writeBitF s).1.m_length then segGet (writeBitF s).1 0
                    else (writeBitF s).1.m_byte },
        (writeBitF s).2.1, false)
    else ((writeBitF s).1, (writeBitF s).2.1, false)
  else if s.m_phase = 4 then
    if (writeBitF s).2.2 then
      if (writeBitF s).1.m_length ≤ (writeBitF s).1.m_currentSegment + 1 then
        ({ (writeBitF s).1 with
            m_currentSegment := (writeBitF s).1.m_currentSegment + 1
            m_phase := 5
            m_counter := 0 },
          (writeBitF s).2.1, false)
      else
        ({ (writeBitF s).1 with
            m_currentSegment := (writeBitF s).1.m_currentSegment + 1
            m_byte := segGet (writeBitF s).1 ((writeBitF s).1.m_currentSegment + 1)
            m_counter := 0 }, (writeBitF s).2.1, false)
    else ((writeBitF s).1, (writeBitF s).2.1, false)
  else if s.m_phase = 5 then
    if (stopConditionF s).2.2 then
      ({ (stopConditionF s).1 with
          m_phase := 6
          m_counter := 0
          m_byte := 0x80 + ((stopConditionF s).1.m_brightness &&& 0x0f) },
        (stopConditionF s).2.1, false)
    else ((stopConditionF s).1, (stopConditionF s).2.1, false)
  else if s.m_phase = 6 then
    if (startConditionF s).2.2 then
      ({ (startConditionF s).1 with m_phase := 7, m_counter := 0 },
        (startConditionF s).2.1, false)
    else ((startConditionF s).1, (startConditionF s).2.1, false)
  else if s.m_phase = 7 then
    if (writeBitF s).2.2 then
      ({ (writeBitF s).1 with m_phase := 8, m_counter := 0 },
        (writeBitF s).2.1, false)
    else ((writeBitF s).1, (writeBitF s).2.1, false)
  else if s.m_phase = 8 then
    if (stopConditionF s).2.2 then
      ({ (stopConditionF s).1 with m_counter := 255 },
        (stopConditionF s).2.1, true)
    else ((stopConditionF s).1, (stopConditionF s).2.1, false)
  else (s, [], false)

/-- `TM1637Display32::update` — one non-blocking advance.  The clock readings
`millis()` / `micros()` are injected as parameters.  Returns the new state,
the GPIO events performed, and the C return value
(`true` = idle/complete, `false` = in progress). -/
def update (s : St) (nowMillis nowMicros : Nat) : St × List Ev × Bool :=
  if s.m_counter = 255 then (s, [], true)
  else if 50 < wsub nowMillis s.m_transmissionStartMillis then
    ({ s with m_counter := 255 }, [], true)
  else if wsub nowMicros s.m_lastUpdateMicros < 50 then (s, [], false)
  else stepMachine { s with m_lastUpdateMicros := nowMicros % M32 }

/-- `TM1637Display32::isIdle`. -/
def isIdle (s : St) : Bool := s.m_counter = 255

/-- One atomic step (a single C++ statement) of `setSegments`: a state
mutation and/or a GPIO call. -/
def Act := St → St × List Ev

/-- Run a list of atomic actions, concatenating their GPIO events. -/
def applyActs : List Act → St → St × List Ev
  | [], s => (s, [])
  | a :: rest, s =>
    let r := a s
    let r2 := applyActs rest r.1
    (r2.1, r.2 ++ r2.2)

/-- `TM1637Display32::setSegments`, one action per statement, in source
order.  `delayMicroseconds` calls mutate nothing and are omitted.  The local
clamp `if (length > 4) length = 4` is a local-variable rewrite, reflected in
the actions that consume the length.  Segment bytes are `uint8_t`, hence the
`% 256` on the copied values. -/
def setSegmentsActs (segments : List Nat) (length pos nowMicros nowMillis : Nat) :
    List Act :=
  [ fun s => ({ s with m_counter := 255 }, []),
    fun s => ({ s with m_segments := fun _ => 0 }, []),
    fun s => ({ s with m_segments := fun i =>
        if i.val < (min length 4) then segments.getD i.val 0 % 256
        else s.m_segments i }, []),
    fun s => ({ s with m_pos := pos % 256 }, []),
    fun s => ({ s with m_length := min length 4 }, []),
    fun s => (s, [Ev.pinMode Pin.clk PMode.output]),
    fun s => (s, [Ev.digitalWrite Pin.clk Level.low]),
    fun s => (s, [Ev.pinMode Pin.dio PMode.output]),
    fun s => (s, [Ev.digitalWrite Pin.dio Level.low]),
    fun s => (s, [Ev.pinMode Pin.clk PMode.inputPullup]),
    fun s => (s, [Ev.pinMode Pin.dio PMode.inputPullup]),
    fun s => (s, [Ev.pinMode Pin.dio PMode.output]),
    fun s => (s, [Ev.digitalWrite Pin.dio Level.low]),
    fun s => ({ s with m_lastUpdateMicros := nowMicros % M32 }, []),
    fun s => ({ s with m_transmissionStartMillis := nowMillis % M32 }, []),
    fun s => ({ s with m_phase := 0 }, []),
    fun s => ({ s with m_bit_count := 0 }, []),
    fun s => ({ s with m_byte := 0x40 }, []),
    fun s => ({ s with m_counter := 0 }, []) ]

/-- `TM1637Display32::setSegments` as a state transformer. -/
def setSegmentsF (s : St) (segments : List Nat) (length pos nowMicros nowMillis : Nat) :
    St × List Ev :=
  applyActs (setSegmentsActs segments length pos nowMicros nowMillis) s

/-- The constructor `TM1637Display32::TM1637Display32` (ESP32 branch).
Member variables the constructor does not assign are uninitialized in C++
and are therefore taken as arbitrary parameters. -/
def initSt (jseg : Fin 4 → Nat) (jlen jpos jphase jbyte jbc jcs : Nat) : St :=
  { m_brightness := 0x0F
    m_segments := jseg
    m_length := jlen
    m_pos := jpos
    m_counter := 255
    m_phase := jphase
    m_byte := jbyte
    m_bit_count := jbc
    m_currentSegment := jcs
    m_lastUpdateMicros := 0
    m_transmissionStartMillis := 0 }

/-- GPIO events of the constructor: pre-set both output latches low, then
configure both pins as inputs with pull-ups. -/
def initEvs : List Ev :=
  [Ev.digitalWrite Pin.clk Level.low, Ev.digitalWrite Pin.dio Level.low,
   Ev.pinMode Pin.clk PMode.inputPullup, Ev.pinMode Pin.dio PMode.inputPullup]

/-- The driving loop of the claims: `n` calls to `update` (advance), each with
`micros()` past the rate-limit gate and `millis()` frozen at the transmission
start (so the watchdog never fires), collecting all GPIO events. -/
def drive : Nat → St → St × List Ev
  | 0, s => (s, [])
  | n + 1, s =>
    let r := update s s.m_transmissionStartMillis ((s.m_lastUpdateMicros + 50) % M32)
    let r2 := drive n r.1
    (r2.1, r.2.1 ++ r2.2)

/-! ## Canonical wire-level event blocks

The expected GPIO trace of a transmission, phrased with one event block per
protocol element (claim C1's "wire-level trace"). -/

/-- The `n` least-significant bits of `b` (each 0 or 1), LSB first. -/
def bitsLSB : Nat → Nat → List Nat
  | 0, _ => []
  | n + 1, b => (b &&& 1) :: bitsLSB n (b >>> 1)

/-- Events of one data bit: clock low, data set to the bit
(release = 1 / drive-low = 0), clock released (sampling edge). -/
def bitEvs (bit : Nat) : List Ev :=
  driveLowEvs Pin.clk
    ++ (if bit ≠ 0 then releaseEvs Pin.dio else driveLowEvs Pin.dio)
    ++ releaseEvs Pin.clk

/-- Events of the ACK slot: clock low, data released for the IC, clock
released, clock low again. -/
def ackEvs : List Ev :=
  driveLowEvs Pin.clk ++ releaseEvs Pin.dio ++ releaseEvs Pin.clk
    ++ driveLowEvs Pin.clk

/-- Events of one byte: its 8 bits LSB-first, then the ACK slot. -/
def byteEvs (b : Nat) : List Ev := (bitsLSB 8 b).flatMap bitEvs ++ ackEvs

/-- Events of a stop condition: DIO rises while CLK is released. -/
def stopEvs : List Ev :=
  driveLowEvs Pin.clk ++ driveLowEvs Pin.dio ++ releaseEvs Pin.clk
    ++ releaseEvs Pin.dio

/-- Events of a start condition: DIO falls while CLK is released. -/
def startEvs : List Ev :=
  releaseEvs Pin.clk ++ releaseEvs Pin.dio ++ driveLowEvs Pin.dio

/-! ## Content encoder -/

def SEG_A : Nat := 0b00000001
def SEG_B : Nat := 0b00000010
def SEG_C : Nat := 0b00000100
def SEG_D : Nat := 0b00001000
def SEG_E : Nat := 0b00010000
def SEG_F : Nat := 0b00100000
def SEG_G : Nat := 0b01000000
def SEG_DP : Nat := 0b10000000

/-- The hex-digit segment table `digitToSegment`. -/
def digitToSegment : List Nat :=
  [0b00111111, 0b00000110, 0b01011011, 0b01001111,
   0b01100110, 0b01101101, 0b01111101, 0b00000111,
   0b01111111, 0b01101111, 0b01110111, 0b01111100,
   0b00111001, 0b01011110, 0b01111001, 0b01110001]

/-- `minusSegments = 0b01000000`. -/
def minusSegments : Nat := 0b01000000

/-- `TM1637Display32::encodeDigit`. -/
def encodeDigit (digit : Nat) : Nat := digitToSegment.getD (digit &&& 0x0f) 0

/-- The character segment table `charToSegment`:
A–Z (0–25), 0–9 (26–35), space (36), dash (37). -/
def charToSegment : List Nat :=
  [SEG_A ||| SEG_B ||| SEG_C ||| SEG_E ||| SEG_F ||| SEG_G,
   SEG_C ||| SEG_D ||| SEG_E ||| SEG_F ||| SEG_G,
   SEG_A ||| SEG_D ||| SEG_E ||| SEG_F,
   SEG_B ||| SEG_C ||| SEG_D ||| SEG_E ||| SEG_G,
   SEG_A ||| SEG_D ||| SEG_E ||| SEG_F ||| SEG_G,
   SEG_A ||| SEG_E ||| SEG_F ||| SEG_G,
   SEG_A ||| SEG_C ||| SEG_D ||| SEG_E ||| SEG_F,
   SEG_C ||| SEG_E ||| SEG_F ||| SEG_G,
   SEG_E ||| SEG_F,
   SEG_B ||| SEG_C ||| SEG_D ||| SEG_E,
   SEG_C ||| SEG_E ||| SEG_F ||| SEG_G,
   SEG_D ||| SEG_E ||| SEG_F,
   SEG_A ||| SEG_C ||| SEG_E ||| SEG_G,
   SEG_C ||| SEG_E ||| SEG_G,
   SEG_A ||| SEG_B ||| SEG_C ||| SEG_D ||| SEG_E ||| SEG_F,
   SEG_A ||| SEG_B ||| SEG_E ||| SEG_F ||| SEG_G,
   SEG_A ||| SEG_B ||| SEG_C ||| SEG_F ||| SEG_G,
   SEG_E ||| SEG_G,
   SEG_A ||| SEG_C ||| SEG_D ||| SEG_F ||| SEG_G,
   SEG_D ||| SEG_E ||| SEG_F ||| SEG_G,
   SEG_B ||| SEG_C ||| SEG_D ||| SEG_E ||| SEG_F,
   SEG_C ||| SEG_D ||| SEG_E,
   SEG_B ||| SEG_D ||| SEG_F ||| SEG_G,
   SEG_B ||| SEG_C ||| SEG_E ||| SEG_F ||| SEG_G,
   SEG_B ||| SEG_C ||| SEG_D ||| SEG_F ||| SEG_G,
   SEG_A ||| SEG_B ||| SEG_D ||| SEG_E ||| SEG_G,
   SEG_A ||| SEG_B ||| SEG_C ||| SEG_D ||| SEG_E ||| SEG_F,
   SEG_B ||| SEG_C,
   SEG_A ||| SEG_B ||| SEG_D ||| SEG_E ||| SEG_G,
   SEG_A ||| SEG_B ||| SEG_C ||| SEG_D ||| SEG_G,
   SEG_B ||| SEG_C ||| SEG_F ||| SEG_G,
   SEG_A ||| SEG_C ||| SEG_D ||| SEG_F ||| SEG_G,
   SEG_A ||| SEG_C ||| SEG_D ||| SEG_E ||| SEG_F ||| SEG_G,
   SEG_A ||| SEG_B ||| SEG_C,
   SEG_A ||| SEG_B ||| SEG_C ||| SEG_D ||| SEG_E ||| SEG_F ||| SEG_G,
   SEG_A ||| SEG_B ||| SEG_C ||| SEG_D ||| SEG_F ||| SEG_G,
   0x00,
   SEG_G]

/-- `TM1637Display32::charToSeg` — character to segment pattern; unknown
characters map to blank. -/
def charToSeg (c : Char) : Nat :=
  if 'A' ≤ c ∧ c ≤ 'Z' then charToSegment.getD (c.toNat - 'A'.toNat) 0
  else if 'a' ≤ c ∧ c ≤ 'z' then charToSegment.getD (c.toNat - 'a'.toNat) 0
  else if '0' ≤ c ∧ c ≤ '9' then charToSegment.getD (26 + (c.toNat - '0'.toNat)) 0
  else if c = ' ' then charToSegment.getD 36 0
  else if c = '-' then charToSegment.getD 37 0
  else 0x00

/-- Write position `n` (if in range) of a 4-entry digit array. -/
def updAt (n v : Nat) (f : Fin 4 → Nat) : Fin 4 → Nat :=
  fun j => if j.val = n then v else f j

/-- `TM1637Display32::showDots` — OR the decimal-point bit of each digit from
the `uint8_t` dot mask, most-significant dot first (the loop
`digits[i] |= dots & 0x80; dots <<= 1;` unrolled; `dots` is truncated to
8 bits by each shift). -/
def showDots (dots : Nat) (d : Fin 4 → Nat) : Fin 4 → Nat :=
  let d0 := updAt 0 (d ⟨0, by omega⟩ ||| (dots &&& 0x80)) d
  let dots1 := (dots <<< 1) % 256
  let d1 := updAt 1 (d0 ⟨1, by omega⟩ ||| (dots1 &&& 0x80)) d0
  let dots2 := (dots1 <<< 1) % 256
  let d2 := updAt 2 (d1 ⟨2, by omega⟩ ||| (dots2 &&& 0x80)) d1
  let dots3 := (dots2 <<< 1) % 256
  updAt 3 (d2 ⟨3, by omega⟩ ||| (dots3 &&& 0x80)) d2

/-- The digit-filling loop of `showNumberBaseEx`
(`for (int i = length - 1; i >= 0; --i)`): the first argument is the number
of iterations left, so the call with `i + 1` writes index `i`.  Writing the
per-iteration index and then possibly overriding it with the minus pattern is
combined into one conditional write, exactly the loop body's net effect. -/
def digitsLoop (base : Nat) (lz : Bool) :
    Nat → Nat → Bool → (Fin 4 → Nat) → Fin 4 → Nat
  | 0, _, _, d => d
  | i + 1, num, neg, d =>
    let digit := num % base
    if digit = 0 ∧ num = 0 ∧ neg then
      digitsLoop base lz i (num / base) false (updAt i minusSegments d)
    else
      digitsLoop base lz i (num / base) neg
        (updAt i (if digit = 0 ∧ num = 0 ∧ lz = false then 0
                  else encodeDigit digit) d)

/-- `TM1637Display32::showNumberBaseEx`, returning the digit array it passes
to `setSegments`.  The local `uint8_t digits[4]` is uninitialized in C++, so
its starting contents are the parameter `init`.  (Executions with
`length ∉ [1,4]` index the array out of bounds in C++ and are outside the
model.) -/
def showNumberBaseExDigits (base : Int) (num dots : Nat) (lz : Bool)
    (length : Nat) (init : Fin 4 → Nat) : Fin 4 → Nat :=
  let negative := base < 0
  let b := base.natAbs
  if num = 0 ∧ lz = false then
    fun j =>
      if j.val < length - 1 then 0
      else if j.val = length - 1 then encodeDigit 0
      else init j
  else
    let d := digitsLoop b lz length num negative init
    if dots ≠ 0 then showDots dots d else d

/-- `TM1637Display32::showNumberDecEx` digit array: the `int` value is split
into sign and magnitude, the magnitude truncated by the `uint16_t` parameter
of `showNumberBaseEx`. -/
def showNumberDecExDigits (num : Int) (dots : Nat) (lz : Bool)
    (length : Nat) (init : Fin 4 → Nat) : Fin 4 → Nat :=
  showNumberBaseExDigits (if num < 0 then -10 else 10)
    ((if num < 0 then -num else num).toNat % 65536) dots lz length init

/-- `TM1637Display32::showNumberHexEx` digit array. -/
def showNumberHexExDigits (num dots : Nat) (lz : Bool)
    (length : Nat) (init : Fin 4 → Nat) : Fin 4 → Nat :=
  showNumberBaseExDigits 16 (num % 65536) dots lz length init

/-- `TM1637Display32::showNumberDec` digit array (`dots = 0`). -/
def showNumberDecDigits (num : Int) (lz : Bool) (length : Nat)
    (init : Fin 4 → Nat) : Fin 4 → Nat :=
  showNumberDecExDigits num 0 lz length init

/-- `TM1637Display32::displayCharAndNumber`, returning the 4-entry segment
array it passes to `setSegments(segs, 4, 0)`: a label character followed by
the fixed three-tier scaled rendering of the number. -/
def displayCharAndNumberSegs (c : Char) (number : Int) : Fin 4 → Nat :=
  let s0 := charToSeg c
  let absNum := number.natAbs
  if 10000 ≤ absNum then
    let a := absNum / 100
    fun j =>
      if j.val = 0 then s0
      else if j.val = 1 then encodeDigit ((a / 100) % 10)
      else if j.val = 2 then encodeDigit ((a / 10) % 10) ||| SEG_DP
      else encodeDigit (a % 10)
  else if 1000 ≤ absNum then
    let a := absNum / 100
    fun j =>
      if j.val = 0 then s0
      else if j.val = 1 then encodeDigit ((a / 10) % 10) ||| SEG_DP
      else if j.val = 2 then encodeDigit (a % 10)
      else charToSeg 'K'
  else
    fun j =>
      if j.val = 0 then s0
      else if j.val = 1 then
        if number < 0 ∧ absNum < 100 then SEG_G
        else if 100 ≤ absNum then encodeDigit ((absNum / 100) % 10) else 0
      else if j.val = 2 then
        if 10 ≤ absNum then encodeDigit ((absNum / 10) % 10) else 0
      else encodeDigit (absNum % 10)

/-- Repeated `update` (advance) calls with an explicit list of injected
`(millis, micros)` clock readings, collecting the GPIO events and the list of
returned booleans. -/
def updatesR : List (Nat × Nat) → St → St × List Ev × List Bool
  | [], s => (s, [], [])
  | t :: ts, s =>
    let r := update s t.1 t.2
    let r2 := updatesR ts r.1
    (r2.1, r.2.1 ++ r2.2.1, r.2.2 :: r2.2.2)

/-- Decimal digits of `n`, least significant first (fuel-based; the fuel `n`
always suffices). -/
def decDigitsAux : Nat → Nat → List Nat
  | 0, _ => []
  | fuel + 1, n => if n = 0 then [] else n % 10 :: decDigitsAux fuel (n / 10)

/-- Number of decimal digits of `n` (0 for `n = 0`). -/
def decDigitCount (n : Nat) : Nat := (decDigitsAux n n).length

/-- The `k`-th most significant decimal digit of `n` (`k = 1` is the leading
digit). -/
def sigDigit (n k : Nat) : Nat := (n / 10 ^ (decDigitCount n - k)) % 10

/-! ## GPIO-trace safety and reachability -/

/-- `true` unless the event writes logic high. -/
def writeIsLow : Ev → Bool
  | Ev.digitalWrite _ Level.high => false
  | _ => true

/-- Detects a switch of a pin to output mode. -/
def isOutputSet : Ev → Bool
  | Ev.pinMode _ PMode.output => true
  | _ => false

/-- If the first event switches a pin to output mode, the second must
immediately write that same pin low. -/
def okPair : Ev → Ev → Bool
  | Ev.pinMode p PMode.output, Ev.digitalWrite q Level.low => p == q
  | Ev.pinMode _ PMode.output, _ => false
  | _, _ => true

/-- Every output-mode switch in the list is immediately followed by a low
write of the same pin (a trailing unpaired switch also fails). -/
def pairedLow : List Ev → Bool
  | [] => true
  | [e] => !isOutputSet e
  | e :: e' :: rest => okPair e e' && pairedLow (e' :: rest)

/-- A safe event block: every write is low, and every switch to output mode
immediately drives the line low. -/
def evsSafe (l : List Ev) : Bool := l.all writeIsLow && pairedLow l

/-- The state of the two physical lines: output latch and direction of each
pin.  The observable level of an open-drain line is high (pull-up) unless the
pin is in output mode with a low latch. -/
structure LineSt where
  latchClk : Level
  latchDio : Level
  modeClk : PMode
  modeDio : PMode

/-- Effect of one GPIO call on the line state. -/
def lineStep (st : LineSt) : Ev → LineSt
  | Ev.pinMode Pin.clk m => { st with modeClk := m }
  | Ev.pinMode Pin.dio m => { st with modeDio := m }
  | Ev.digitalWrite Pin.clk v => { st with latchClk := v }
  | Ev.digitalWrite Pin.dio v => { st with latchDio := v }

/-- Replay a GPIO trace on the line state. -/
def lineFold (st : LineSt) (l : List Ev) : LineSt := l.foldl lineStep st

/-- At every prefix of the trace, a pin in output mode has a low latch:
neither line is ever actively driven high. -/
def neverDrivenHigh (st0 : LineSt) (tr : List Ev) : Prop :=
  ∀ n : Nat,
    ((lineFold st0 (tr.take n)).modeClk = PMode.output →
      (lineFold st0 (tr.take n)).latchClk = Level.low) ∧
    ((lineFold st0 (tr.take n)).modeDio = PMode.output →
      (lineFold st0 (tr.take n)).latchDio = Level.low)

/-- Reachable driver states with their accumulated GPIO traces: the
constructor followed by any sequence of `setSegments` and `update` calls,
with arbitrary arguments and clock readings. -/
inductive Reach : St → List Ev → Prop
  | init (jseg : Fin 4 → Nat) (jlen jpos jphase jbyte jbc jcs : Nat) :
      Reach (initSt jseg jlen jpos jphase jbyte jbc jcs) initEvs
  | set (s : St) (tr : List Ev) (segments : List Nat)
      (length pos us ms : Nat) : Reach s tr →
      Reach (setSegmentsF s segments length pos us ms).1
        (tr ++ (setSegmentsF s segments length pos us ms).2)
  | adv (s : St) (tr : List Ev) (nowMs nowUs : Nat) : Reach s tr →
      Reach (update s nowMs nowUs).1 (tr ++ (update s nowMs nowUs).2.1)

/-- The in-flight range invariant of the engine state: either idle, or all
counters within the ranges of the phase-dispatched sub-machines. -/
def EngineInv (s : St) : Prop :=
  s.m_counter = 255 ∨
    (s.m_length ≤ 4 ∧ s.m_phase ≤ 8 ∧ s.m_counter ≤ 6 ∧ s.m_bit_count ≤ 8 ∧
     ((s.m_phase = 0 ∨ s.m_phase = 3 ∨ s.m_phase = 4 ∨ s.m_phase = 7) →
        s.m_counter ≤ 2 → s.m_bit_count ≤ 7) ∧
     ((s.m_phase = 1 ∨ s.m_phase = 2 ∨ s.m_phase = 5 ∨ s.m_phase = 6 ∨
        s.m_phase = 8) → s.m_bit_count = 0))

/-- A freshly constructed (idle) driver. -/
def freshSt : St := initSt (fun _ => 0) 0 0 0 0 0 0

/-- A concrete armed (in-flight) engine state: `setSegments([0xAB], 1, 0)` at
time 0 on a fresh driver. -/
def armedSt : St := (setSegmentsF freshSt [0xAB] 1 0 0 0).1

/-! ## Basic engine lemmas -/

theorem wsub_self (x : Nat) : wsub x x = 0 := by
  unfold wsub M32
  omega

theorem wsub_step (l : Nat) (h : l < M32) : wsub ((l + 50) % M32) l = 50 := by
  unfold wsub M32 at *
  omega

/-- An idle engine ignores `update` entirely. -/
theorem update_idle (s : St) (nowMs nowUs : Nat) (h : s.m_counter = 255) :
    update s nowMs nowUs = (s, [], true) := by
  unfold update
  rw [if_pos h]

/-- With the driving-loop clock injections, an in-flight `update` call passes
the watchdog and rate-limit gates and performs one `stepMachine` step. -/
theorem update_active (s : St) (hc : s.m_counter ≠ 255)
    (hl : s.m_lastUpdateMicros < M32) :
    update s s.m_transmissionStartMillis ((s.m_lastUpdateMicros + 50) % M32)
      = stepMachine { s with m_lastUpdateMicros := (s.m_lastUpdateMicros + 50) % M32 } := by
  unfold update
  rw [if_neg hc, if_neg (by rw [wsub_self]; omega),
    if_neg (by rw [wsub_step _ hl]; omega)]
  have h2 : ((s.m_lastUpdateMicros + 50) % M32) % M32
      = (s.m_lastUpdateMicros + 50) % M32 := by unfold M32; omega
  rw [h2]

theorem drive_add (m n : Nat) (s : St) :
    drive (m + n) s
      = ((drive n (drive m s).1).1, (drive m s).2 ++ (drive n (drive m s).1).2) := by
  induction m generalizing s with
  | zero => simp [drive]
  | succ m ih =>
    rw [Nat.succ_add]
    simp [drive, ih]

/-! ## Claims C3, C4, C5: gates of `advance` -/

/-- Claim C5: on an idle engine, `advance` returns `true`, leaves the state
unchanged and performs no GPIO transition; repeating it any number of times
(with arbitrary clock readings) is likewise a no-op with all calls
returning `true`. -/
theorem advance_idle_noop (s : St) (nowMs nowUs : Nat) (h : s.m_counter = 255) :
    update s nowMs nowUs = (s, [], true) ∧
    ∀ ts : List (Nat × Nat),
      updatesR ts s = (s, [], List.replicate ts.length true) := by
  refine ⟨update_idle s nowMs nowUs h, ?_⟩
  intro ts
  induction ts with
  | nil => rfl
  | cons t ts ih =>
    simp [updatesR, update_idle s t.1 t.2 h, ih, List.replicate_succ]

/-- Witness for claim C5 at a concrete idle state. -/
theorem advance_idle_noop_witness :
    update freshSt 3 4 = (freshSt, [], true) ∧
    ∀ ts : List (Nat × Nat),
      updatesR ts freshSt = (freshSt, [], List.replicate ts.length true) :=
  advance_idle_noop freshSt 3 4 rfl

/-- Claim C3: for every in-flight engine state, if the elapsed `millis` time
since the recorded transmission start exceeds the 50 ms watchdog bound, the
next `advance` force-resets the engine to idle (only `m_counter` changes) and
returns `true` with no GPIO activity, regardless of phase or sub-step. -/
theorem advance_watchdog_reset (s : St) (nowMs nowUs : Nat)
    (hc : s.m_counter ≠ 255)
    (hw : 50 < wsub nowMs s.m_transmissionStartMillis) :
    update s nowMs nowUs = ({ s with m_counter := 255 }, [], true) := by
  unfold update
  rw [if_neg hc, if_pos hw]

/-- Witness for claim C3 at a concrete in-flight state. -/
theorem advance_watchdog_reset_witness :
    update armedSt 51 0 = ({ armedSt with m_counter := 255 }, [], true) :=
  advance_watchdog_reset armedSt 51 0 (by decide) (by decide)

/-- Claim C4 (amended): for every in-flight engine state, an `advance` call
whose elapsed `micros` time since the previous stepping call is below the
50 µs minimum interval — provided the watchdog bound is not exceeded —
returns `false` and performs no state transition and no GPIO activity. -/
theorem advance_rate_limited (s : St) (nowMs nowUs : Nat)
    (hc : s.m_counter ≠ 255)
    (hw : wsub nowMs s.m_transmissionStartMillis ≤ 50)
    (hr : wsub nowUs s.m_lastUpdateMicros < 50) :
    update s nowMs nowUs = (s, [], false) := by
  unfold update
  rw [if_neg hc, if_neg (by omega), if_pos hr]

/-- Witness for claim C4's amended theorem at a concrete in-flight state. -/
theorem advance_rate_limited_witness :
    update armedSt 0 10 = (armedSt, [], false) :=
  advance_rate_limited armedSt 0 10 (by decide) (by decide) (by decide)

/-- Claim C4 counterexample: on an in-flight state, a call made 0 µs after
the previous step (well under the minimum interval) nevertheless returns
`true` and mutates the state (reset to idle) when the watchdog bound has
been exceeded — the watchdog check precedes the rate-limit check. -/
theorem advance_rate_limit_counterexample :
    armedSt.m_counter = 0 ∧
    wsub 0 armedSt.m_lastUpdateMicros < 50 ∧
    (update armedSt 51 0).2.2 = true ∧
    (update armedSt 51 0).1.m_counter = 255 := by decide

/-! ## Claim C2: preemption safety of `setSegments` -/

/-- Claim C2: during `setSegments`, the very first atomic action marks the
engine idle and performs no GPIO call; every proper prefix of the statement
sequence (after that first action) leaves the engine idle, so a preempting
`advance` call is a no-op on engine state; and the arming write
`m_counter = 0` is the very last mutation — the state after all statements
differs from the state after all-but-the-last only in `m_counter`. -/
theorem setSegments_preemption (s : St) (segs : List Nat)
    (len pos us ms nowMs nowUs : Nat) :
    (applyActs ((setSegmentsActs segs len pos us ms).take 1) s
       = ({ s with m_counter := 255 }, [])) ∧
    (∀ k, 1 ≤ k → k < (setSegmentsActs segs len pos us ms).length →
       (applyActs ((setSegmentsActs segs len pos us ms).take k) s).1.m_counter
           = 255 ∧
       update (applyActs ((setSegmentsActs segs len pos us ms).take k) s).1
           nowMs nowUs
         = ((applyActs ((setSegmentsActs segs len pos us ms).take k) s).1,
            [], true)) ∧
    (setSegmentsF s segs len pos us ms).1.m_counter = 0 ∧
    applyActs ((setSegmentsActs segs len pos us ms).take
        ((setSegmentsActs segs len pos us ms).length - 1)) s
      = ({ (setSegmentsF s segs len pos us ms).1 with m_counter := 255 },
         (setSegmentsF s segs len pos us ms).2) := by
  refine ⟨rfl, ?_, rfl, rfl⟩
  intro k h1 h2
  simp only [setSegmentsActs, List.length] at h2
  interval_cases k <;> exact ⟨rfl, update_idle _ _ _ rfl⟩

/-- Witness for claim C2: a mid-`setSegments` prefix (8 of 19 statements, the
point right after the bus-recovery writes began) observed by a preempting
`advance`, on concrete arguments. -/
theorem setSegments_preemption_witness :
    (applyActs ((setSegmentsActs [1, 2] 2 0 7 13).take 8) freshSt).1.m_counter
        = 255 ∧
    update (applyActs ((setSegmentsActs [1, 2] 2 0 7 13).take 8) freshSt).1 3 4
      = ((applyActs ((setSegmentsActs [1, 2] 2 0 7 13).take 8) freshSt).1,
         [], true) :=
  (setSegments_preemption freshSt [1, 2] 2 0 7 13 3 4).2.1 8 (by decide)
    (by decide)

/-! ## Stepping lemmas for the driving loop -/

theorem mod_lt_M32 (x : Nat) : x % M32 < M32 := Nat.mod_lt _ (by decide)

/-- `setSegments` in closed form: the armed state and the recovery-stop-plus-
start event sequence. -/
theorem setSegmentsF_eq (s : St) (segs : List Nat) (len pos us ms : Nat) :
    setSegmentsF s segs len pos us ms
      = ({ s with
            m_segments := fun i =>
              if i.val < (min len 4) then segs.getD i.val 0 % 256 else 0
            m_length := min len 4
            m_pos := pos % 256
            m_counter := 0
            m_phase := 0
            m_byte := 0x40
            m_bit_count := 0
            m_lastUpdateMicros := us % M32
            m_transmissionStartMillis := ms % M32 },
         stopEvs ++ driveLowEvs Pin.dio) := rfl

/-- Driving an idle engine produces nothing. -/
theorem drive_idle (n : Nat) (s : St) (h : s.m_counter = 255) :
    drive n s = (s, []) := by
  induction n with
  | zero => rfl
  | succ n ih => simp [drive, update_idle s _ _ h, ih]

/-- Peeling one in-flight driving step into a `stepMachine` application. -/
theorem drive_step_active (n : Nat) (s : St) (hc : s.m_counter ≠ 255)
    (hl : s.m_lastUpdateMicros < M32) :
    drive (n + 1) s
      = ((drive n (stepMachine
            { s with m_lastUpdateMicros := (s.m_lastUpdateMicros + 50) % M32 }).1).1,
         (stepMachine
            { s with m_lastUpdateMicros := (s.m_lastUpdateMicros + 50) % M32 }).2.1
           ++ (drive n (stepMachine
            { s with m_lastUpdateMicros := (s.m_lastUpdateMicros + 50) % M32 }).1).2) := by
  conv_lhs => rw [drive]
  rw [update_active s hc hl]

theorem drive_bit_step (n : Nat) (s : St)
    (hph : s.m_phase = 0 ∨ s.m_phase = 3 ∨ s.m_phase = 4 ∨ s.m_phase = 7)
    (hc : s.m_counter = 0) (hbc : s.m_bit_count < 8)
    (hl : s.m_lastUpdateMicros < M32) :
    drive (n + 3) s
      = ((drive n { s with
            m_byte := s.m_byte >>> 1
            m_bit_count := s.m_bit_count + 1
            m_counter := if s.m_bit_count + 1 < 8 then 0 else 3
            m_lastUpdateMicros := (s.m_lastUpdateMicros + 150) % M32 }).1,
         bitEvs (s.m_byte &&& 1)
           ++ (drive n { s with
            m_byte := s.m_byte >>> 1
            m_bit_count := s.m_bit_count + 1
            m_counter := if s.m_bit_count + 1 < 8 then 0 else 3
            m_lastUpdateMicros := (s.m_lastUpdateMicros + 150) % M32 }).2) := by
  obtain ⟨br, seg, len, pos, cnt, ph, byt, bc, cs, lu, ts⟩ := s
  simp only at hc hbc hl hph ⊢
  subst hc
  rw [show n + 3 = ((n + 1) + 1) + 1 by omega]
  rcases hph with h|h|h|h <;> subst h <;> by_cases hbit : byt % 2 = 1 <;>
    by_cases h8 : bc + 1 < 8 <;>
    simp [drive_step_active, stepMachine, writeBitF, bitEvs, driveLowEvs,
      releaseEvs, hl, mod_lt_M32, hbit, hbc, h8, Nat.mod_add_mod, segGet,
      Nat.and_one_is_mod, Nat.mod_two_not_eq_zero, Nat.add_assoc]



theorem drive_bits (m : Nat) : ∀ (n : Nat) (s : St),
    (s.m_phase = 0 ∨ s.m_phase = 3 ∨ s.m_phase = 4 ∨ s.m_phase = 7) →
    s.m_counter = 0 → 0 < m → s.m_bit_count + m = 8 →
    s.m_lastUpdateMicros < M32 →
    drive (n + 3 * m) s
      = ((drive n { s with
            m_byte := s.m_byte >>> m
            m_bit_count := 8
            m_counter := 3
            m_lastUpdateMicros := (s.m_lastUpdateMicros + 150 * m) % M32 }).1,
         (bitsLSB m s.m_byte).flatMap bitEvs
           ++ (drive n { s with
            m_byte := s.m_byte >>> m
            m_bit_count := 8
            m_counter := 3
            m_lastUpdateMicros := (s.m_lastUpdateMicros + 150 * m) % M32 }).2) := by
  induction m with
  | zero => intro n s _ _ hm _ _; exact absurd hm (lt_irrefl 0)
  | succ m ih =>
    intro n s hph hc hm hbc hl
    by_cases hm0 : m = 0
    · subst hm0
      rw [Nat.mul_one]
      rw [drive_bit_step n s hph hc (by omega) hl]
      have hbc7 : s.m_bit_count = 7 := by omega
      simp [hbc7, bitsLSB, Nat.mul_one]
    · have hmpos : 0 < m := Nat.pos_of_ne_zero hm0
      have e : n + 3 * (m + 1) = (n + 3 * m) + 3 := by ring
      rw [e, drive_bit_step (n + 3 * m) s hph hc (by omega) hl]
      have hcnt : (if s.m_bit_count + 1 < 8 then 0 else 3) = 0 := by
        rw [if_pos]; omega
      rw [hcnt]
      rw [ih n _ (by simpa using hph) rfl hmpos (by simp; omega) (mod_lt_M32 _)]
      have e1 : s.m_byte >>> 1 >>> m = s.m_byte >>> (m + 1) := by
        rw [← Nat.shiftRight_add, Nat.add_comm]
      have e2 : ((s.m_lastUpdateMicros + 150) % M32 + 150 * m) % M32
          = (s.m_lastUpdateMicros + 150 * (m + 1)) % M32 := by
        rw [Nat.mod_add_mod]; unfold M32; omega
      simp only [e1, e2]
      simp [bitsLSB, List.append_assoc]



theorem drive_ack3 (n : Nat) (s : St)
    (hph : s.m_phase = 0 ∨ s.m_phase = 3 ∨ s.m_phase = 4 ∨ s.m_phase = 7)
    (hc : s.m_counter = 3) (hl : s.m_lastUpdateMicros < M32) :
    drive (n + 3) s
      = ((drive n { s with
            m_counter := 6
            m_lastUpdateMicros := (s.m_lastUpdateMicros + 150) % M32 }).1,
         (driveLowEvs Pin.clk ++ releaseEvs Pin.dio ++ releaseEvs Pin.clk)
           ++ (drive n { s with
            m_counter := 6
            m_lastUpdateMicros := (s.m_lastUpdateMicros + 150) % M32 }).2) := by
  obtain ⟨br, seg, len, pos, cnt, ph, byt, bc, cs, lu, ts⟩ := s
  simp only at hc hl hph ⊢
  subst hc
  rw [show n + 3 = ((n + 1) + 1) + 1 by omega]
  rcases hph with h|h|h|h <;> subst h <;>
    simp [drive_step_active, stepMachine, writeBitF, driveLowEvs, releaseEvs,
      hl, mod_lt_M32, Nat.mod_add_mod, Nat.add_assoc]

theorem drive_byteDone0 (n : Nat) (s : St) (hph : s.m_phase = 0)
    (hc : s.m_counter = 6) (hl : s.m_lastUpdateMicros < M32) :
    drive (n + 1) s
      = ((drive n { s with
            m_bit_count := 0
            m_phase := 1
            m_counter := 0
            m_lastUpdateMicros := (s.m_lastUpdateMicros + 50) % M32 }).1,
         driveLowEvs Pin.clk
           ++ (drive n { s with
            m_bit_count := 0
            m_phase := 1
            m_counter := 0
            m_lastUpdateMicros := (s.m_lastUpdateMicros + 50) % M32 }).2) := by
  obtain ⟨br, seg, len, pos, cnt, ph, byt, bc, cs, lu, ts⟩ := s
  simp only at hc hl hph ⊢
  subst hc; subst hph
  simp [drive_step_active, stepMachine, writeBitF, driveLowEvs, hl, mod_lt_M32]

theorem drive_byteDone3 (n : Nat) (s : St) (hph : s.m_phase = 3)
    (hc : s.m_counter = 6) (hlen : 0 < s.m_length)
    (hl : s.m_lastUpdateMicros < M32) :
    drive (n + 1) s
      = ((drive n { s with
            m_bit_count := 0
            m_phase := 4
            m_counter := 0
            m_currentSegment := 0
            m_byte := segGet s 0
            m_lastUpdateMicros := (s.m_lastUpdateMicros + 50) % M32 }).1,
         driveLowEvs Pin.clk
           ++ (drive n { s with
            m_bit_count := 0
            m_phase := 4
            m_counter := 0
            m_currentSegment := 0
            m_byte := segGet s 0
            m_lastUpdateMicros := (s.m_lastUpdateMicros + 50) % M32 }).2) := by
  obtain ⟨br, seg, len, pos, cnt, ph, byt, bc, cs, lu, ts⟩ := s
  simp only at hc hl hph hlen ⊢
  subst hc; subst hph
  simp [drive_step_active, stepMachine, writeBitF, driveLowEvs, hl, mod_lt_M32,
    segGet, hlen]

theorem drive_byteDone4_more (n : Nat) (s : St) (hph : s.m_phase = 4)
    (hc : s.m_counter = 6) (hlen : s.m_currentSegment + 1 < s.m_length)
    (hl : s.m_lastUpdateMicros < M32) :
    drive (n + 1) s
      = ((drive n { s with
            m_bit_count := 0
            m_currentSegment := s.m_currentSegment + 1
            m_byte := segGet s (s.m_currentSegment + 1)
            m_counter := 0
            m_lastUpdateMicros := (s.m_lastUpdateMicros + 50) % M32 }).1,
         driveLowEvs Pin.clk
           ++ (drive n { s with
            m_bit_count := 0
            m_currentSegment := s.m_currentSegment + 1
            m_byte := segGet s (s.m_currentSegment + 1)
            m_counter := 0
            m_lastUpdateMicros := (s.m_lastUpdateMicros + 50) % M32 }).2) := by
  obtain ⟨br, seg, len, pos, cnt, ph, byt, bc, cs, lu, ts⟩ := s
  simp only at hc hl hph hlen ⊢
  subst hc; subst hph
  have hn : ¬ (len ≤ cs + 1) := by omega
  simp [drive_step_active, stepMachine, writeBitF, driveLowEvs, hl, mod_lt_M32,
    segGet, hn]

theorem drive_byteDone4_last (n : Nat) (s : St) (hph : s.m_phase = 4)
    (hc : s.m_counter = 6) (hlen : s.m_length ≤ s.m_currentSegment + 1)
    (hl : s.m_lastUpdateMicros < M32) :
    drive (n + 1) s
      = ((drive n { s with
            m_bit_count := 0
            m_currentSegment := s.m_currentSegment + 1
            m_phase := 5
            m_counter := 0
            m_lastUpdateMicros := (s.m_lastUpdateMicros + 50) % M32 }).1,
         driveLowEvs Pin.clk
           ++ (drive n { s with
            m_bit_count := 0
            m_currentSegment := s.m_currentSegment + 1
            m_phase := 5
            m_counter := 0
            m_lastUpdateMicros := (s.m_lastUpdateMicros + 50) % M32 }).2) := by
  obtain ⟨br, seg, len, pos, cnt, ph, byt, bc, cs, lu, ts⟩ := s
  simp only at hc hl hph hlen ⊢
  subst hc; subst hph
  simp [drive_step_active, stepMachine, writeBitF, driveLowEvs, hl, mod_lt_M32,
    hlen]

theorem drive_byteDone7 (n : Nat) (s : St) (hph : s.m_phase = 7)
    (hc : s.m_counter = 6) (hl : s.m_lastUpdateMicros < M32) :
    drive (n + 1) s
      = ((drive n { s with
            m_bit_count := 0
            m_phase := 8
            m_counter := 0
            m_lastUpdateMicros := (s.m_lastUpdateMicros + 50) % M32 }).1,
         driveLowEvs Pin.clk
           ++ (drive n { s with
            m_bit_count := 0
            m_phase := 8
            m_counter := 0
            m_lastUpdateMicros := (s.m_lastUpdateMicros + 50) % M32 }).2) := by
  obtain ⟨br, seg, len, pos, cnt, ph, byt, bc, cs, lu, ts⟩ := s
  simp only at hc hl hph ⊢
  subst hc; subst hph
  simp [drive_step_active, stepMachine, writeBitF, driveLowEvs, hl, mod_lt_M32]

theorem drive_stop3 (n : Nat) (s : St)
    (hph : s.m_phase = 1 ∨ s.m_phase = 5 ∨ s.m_phase = 8)
    (hc : s.m_counter = 0) (hl : s.m_lastUpdateMicros < M32) :
    drive (n + 3) s
      = ((drive n { s with
            m_counter := 3
            m_lastUpdateMicros := (s.m_lastUpdateMicros + 150) % M32 }).1,
         (driveLowEvs Pin.clk ++ driveLowEvs Pin.dio ++ releaseEvs Pin.clk)
           ++ (drive n { s with
            m_counter := 3
            m_lastUpdateMicros := (s.m_lastUpdateMicros + 150) % M32 }).2) := by
  obtain ⟨br, seg, len, pos, cnt, ph, byt, bc, cs, lu, ts⟩ := s
  simp only at hc hl hph ⊢
  subst hc
  rw [show n + 3 = ((n + 1) + 1) + 1 by omega]
  rcases hph with h|h|h <;> subst h <;>
    simp [drive_step_active, stepMachine, stopConditionF, driveLowEvs,
      releaseEvs, hl, mod_lt_M32, Nat.mod_add_mod, Nat.add_assoc]

theorem drive_stopDone1 (n : Nat) (s : St) (hph : s.m_phase = 1)
    (hc : s.m_counter = 3) (hl : s.m_lastUpdateMicros < M32) :
    drive (n + 1) s
      = ((drive n { s with
            m_phase := 2
            m_counter := 0
            m_byte := 0xC0 + (s.m_pos &&& 0x03)
            m_lastUpdateMicros := (s.m_lastUpdateMicros + 50) % M32 }).1,
         releaseEvs Pin.dio
           ++ (drive n { s with
            m_phase := 2
            m_counter := 0
            m_byte := 0xC0 + (s.m_pos &&& 0x03)
            m_lastUpdateMicros := (s.m_lastUpdateMicros + 50) % M32 }).2) := by
  obtain ⟨br, seg, len, pos, cnt, ph, byt, bc, cs, lu, ts⟩ := s
  simp only at hc hl hph ⊢
  subst hc; subst hph
  simp [drive_step_active, stepMachine, stopConditionF, releaseEvs, hl,
    mod_lt_M32]

theorem drive_stopDone5 (n : Nat) (s : St) (hph : s.m_phase = 5)
    (hc : s.m_counter = 3) (hl : s.m_lastUpdateMicros < M32) :
    drive (n + 1) s
      = ((drive n { s with
            m_phase := 6
            m_counter := 0
            m_byte := 0x80 + (s.m_brightness &&& 0x0f)
            m_lastUpdateMicros := (s.m_lastUpdateMicros + 50) % M32 }).1,
         releaseEvs Pin.dio
           ++ (drive n { s with
            m_phase := 6
            m_counter := 0
            m_byte := 0x80 + (s.m_brightness &&& 0x0f)
            m_lastUpdateMicros := (s.m_lastUpdateMicros + 50) % M32 }).2) := by
  obtain ⟨br, seg, len, pos, cnt, ph, byt, bc, cs, lu, ts⟩ := s
  simp only at hc hl hph ⊢
  subst hc; subst hph
  simp [drive_step_active, stepMachine, stopConditionF, releaseEvs, hl,
    mod_lt_M32]

theorem drive_stopDone8 (n : Nat) (s : St) (hph : s.m_phase = 8)
    (hc : s.m_counter = 3) (hl : s.m_lastUpdateMicros < M32) :
    drive (n + 1) s
      = ((drive n { s with
            m_counter := 255
            m_lastUpdateMicros := (s.m_lastUpdateMicros + 50) % M32 }).1,
         releaseEvs Pin.dio
           ++ (drive n { s with
            m_counter := 255
            m_lastUpdateMicros := (s.m_lastUpdateMicros + 50) % M32 }).2) := by
  obtain ⟨br, seg, len, pos, cnt, ph, byt, bc, cs, lu, ts⟩ := s
  simp only at hc hl hph ⊢
  subst hc; subst hph
  simp [drive_step_active, stepMachine, stopConditionF, releaseEvs, hl,
    mod_lt_M32]

theorem drive_start (n : Nat) (s : St)
    (hph : s.m_phase = 2 ∨ s.m_phase = 6)
    (hc : s.m_counter = 0) (hl : s.m_lastUpdateMicros < M32) :
    drive (n + 3) s
      = ((drive n { s with
            m_phase := s.m_phase + 1
            m_counter := 0
            m_lastUpdateMicros := (s.m_lastUpdateMicros + 150) % M32 }).1,
         startEvs
           ++ (drive n { s with
            m_phase := s.m_phase + 1
            m_counter := 0
            m_lastUpdateMicros := (s.m_lastUpdateMicros + 150) % M32 }).2) := by
  obtain ⟨br, seg, len, pos, cnt, ph, byt, bc, cs, lu, ts⟩ := s
  simp only at hc hl hph ⊢
  subst hc
  rw [show n + 3 = ((n + 1) + 1) + 1 by omega]
  rcases hph with h|h <;> subst h <;>
    simp [drive_step_active, stepMachine, startConditionF, startEvs,
      driveLowEvs, releaseEvs, hl, mod_lt_M32, Nat.mod_add_mod, Nat.add_assoc]



theorem bitsLSB_mod (n : Nat) : ∀ x, bitsLSB n (x % 2 ^ n) = bitsLSB n x := by
  induction n with
  | zero => intro x; rfl
  | succ n ih =>
    intro x
    simp only [bitsLSB, List.cons.injEq]
    constructor
    · rw [Nat.and_one_is_mod, Nat.and_one_is_mod,
        Nat.mod_mod_of_dvd _ ⟨2 ^ n, by ring⟩]
    · have e : (x % 2 ^ (n + 1)) >>> 1 = (x >>> 1) % 2 ^ n := by
        rw [Nat.shiftRight_one, Nat.shiftRight_one, pow_succ']
        exact Nat.mod_mul_right_div_self x 2 (2 ^ n)
      rw [e, ih]

theorem byteEvs_mod (x : Nat) : byteEvs (x % 256) = byteEvs x := by
  unfold byteEvs
  rw [show (256 : Nat) = 2 ^ 8 by norm_num, bitsLSB_mod]

theorem and3_mod256 (x : Nat) : x % 256 &&& 3 = x &&& 3 := by
  have h := Nat.mod_mod_of_dvd x (show (4 : Nat) ∣ 256 by norm_num)
  have e1 : x % 256 &&& 3 = x % 256 % 4 := by
    simpa using Nat.and_pow_two_sub_one_eq_mod (x % 256) 2
  have e2 : x &&& 3 = x % 4 := by
    simpa using Nat.and_pow_two_sub_one_eq_mod x 2
  rw [e1, e2, h]

theorem drive_byte27 (n : Nat) (s : St)
    (hph : s.m_phase = 0 ∨ s.m_phase = 3 ∨ s.m_phase = 4 ∨ s.m_phase = 7)
    (hc : s.m_counter = 0) (hbc : s.m_bit_count = 0)
    (hl : s.m_lastUpdateMicros < M32) :
    drive (n + 27) s
      = ((drive n { s with
            m_byte := s.m_byte >>> 8
            m_bit_count := 8
            m_counter := 6
            m_lastUpdateMicros := (s.m_lastUpdateMicros + 1350) % M32 }).1,
         ((bitsLSB 8 s.m_byte).flatMap bitEvs
            ++ (driveLowEvs Pin.clk ++ releaseEvs Pin.dio ++ releaseEvs Pin.clk))
           ++ (drive n { s with
            m_byte := s.m_byte >>> 8
            m_bit_count := 8
            m_counter := 6
            m_lastUpdateMicros := (s.m_lastUpdateMicros + 1350) % M32 }).2) := by
  rw [show n + 27 = (n + 3) + 3 * 8 by ring]
  rw [drive_bits 8 (n + 3) s hph hc (by omega) (by omega) hl]
  rw [drive_ack3 n _ (by simpa using hph) rfl (mod_lt_M32 _)]
  have e2 : ((s.m_lastUpdateMicros + 150 * 8) % M32 + 150) % M32
      = (s.m_lastUpdateMicros + 1350) % M32 := by
    unfold M32; omega
  simp only [e2]
  simp [List.append_assoc]



set_option maxHeartbeats 2000000 in
theorem drive_head63 (n : Nat) (s : St) (hph : s.m_phase = 0)
    (hc : s.m_counter = 0) (hbc : s.m_bit_count = 0)
    (hlen : 0 < s.m_length) (hl : s.m_lastUpdateMicros < M32) :
    drive (n + 63) s
      = ((drive n { s with
            m_phase := 4
            m_counter := 0
            m_bit_count := 0
            m_currentSegment := 0
            m_byte := segGet s 0
            m_lastUpdateMicros := (s.m_lastUpdateMicros + 3150) % M32 }).1,
         (byteEvs s.m_byte ++ stopEvs ++ startEvs
            ++ byteEvs (0xC0 + (s.m_pos &&& 0x03)))
           ++ (drive n { s with
            m_phase := 4
            m_counter := 0
            m_bit_count := 0
            m_currentSegment := 0
            m_byte := segGet s 0
            m_lastUpdateMicros := (s.m_lastUpdateMicros + 3150) % M32 }).2) := by
  rw [show n + 63 = (n + 36) + 27 by ring]
  rw [drive_byte27 (n + 36) s (Or.inl hph) hc hbc hl]
  rw [show n + 36 = (n + 35) + 1 by ring]
  rw [drive_byteDone0 (n + 35) _ (by exact hph) (by rfl) (mod_lt_M32 _)]
  rw [show n + 35 = (n + 32) + 3 by ring]
  rw [drive_stop3 (n + 32) _ (by exact Or.inl rfl) (by rfl) (mod_lt_M32 _)]
  rw [show n + 32 = (n + 31) + 1 by ring]
  rw [drive_stopDone1 (n + 31) _ (by rfl) (by rfl) (mod_lt_M32 _)]
  rw [show n + 31 = (n + 28) + 3 by ring]
  rw [drive_start (n + 28) _ (by exact Or.inl rfl) (by rfl) (mod_lt_M32 _)]
  rw [show n + 28 = (n + 1) + 27 by ring]
  rw [drive_byte27 (n + 1) _ (by exact Or.inr (Or.inl rfl)) (by rfl) (by rfl)
    (mod_lt_M32 _)]
  rw [drive_byteDone3 n _ (by rfl) (by rfl) (by exact hlen) (mod_lt_M32 _)]
  simp [byteEvs, ackEvs, stopEvs, startEvs, segGet, List.append_assoc,
    Nat.mod_add_mod, Nat.add_assoc]



set_option maxHeartbeats 2000000 in
theorem drive_dataByte_more (n : Nat) (s : St) (hph : s.m_phase = 4)
    (hc : s.m_counter = 0) (hbc : s.m_bit_count = 0)
    (hlen : s.m_currentSegment + 1 < s.m_length)
    (hl : s.m_lastUpdateMicros < M32) :
    drive (n + 28) s
      = ((drive n { s with
            m_currentSegment := s.m_currentSegment + 1
            m_byte := segGet s (s.m_currentSegment + 1)
            m_counter := 0
            m_bit_count := 0
            m_lastUpdateMicros := (s.m_lastUpdateMicros + 1400) % M32 }).1,
         byteEvs s.m_byte
           ++ (drive n { s with
            m_currentSegment := s.m_currentSegment + 1
            m_byte := segGet s (s.m_currentSegment + 1)
            m_counter := 0
            m_bit_count := 0
            m_lastUpdateMicros := (s.m_lastUpdateMicros + 1400) % M32 }).2) := by
  rw [show n + 28 = (n + 1) + 27 by ring]
  rw [drive_byte27 (n + 1) s (Or.inr (Or.inr (Or.inl hph))) hc hbc hl]
  rw [drive_byteDone4_more n _ (by exact hph) (by rfl) (by exact hlen)
    (mod_lt_M32 _)]
  simp [byteEvs, ackEvs, segGet, List.append_assoc, Nat.mod_add_mod,
    Nat.add_assoc]

set_option maxHeartbeats 2000000 in
theorem drive_dataByte_last (n : Nat) (s : St) (hph : s.m_phase = 4)
    (hc : s.m_counter = 0) (hbc : s.m_bit_count = 0)
    (hlen : s.m_length ≤ s.m_currentSegment + 1)
    (hl : s.m_lastUpdateMicros < M32) :
    drive (n + 28) s
      = ((drive n { s with
            m_currentSegment := s.m_currentSegment + 1
            m_byte := s.m_byte >>> 8
            m_phase := 5
            m_counter := 0
            m_bit_count := 0
            m_lastUpdateMicros := (s.m_lastUpdateMicros + 1400) % M32 }).1,
         byteEvs s.m_byte
           ++ (drive n { s with
            m_currentSegment := s.m_currentSegment + 1
            m_byte := s.m_byte >>> 8
            m_phase := 5
            m_counter := 0
            m_bit_count := 0
            m_lastUpdateMicros := (s.m_lastUpdateMicros + 1400) % M32 }).2) := by
  rw [show n + 28 = (n + 1) + 27 by ring]
  rw [drive_byte27 (n + 1) s (Or.inr (Or.inr (Or.inl hph))) hc hbc hl]
  rw [drive_byteDone4_last n _ (by exact hph) (by rfl) (by exact hlen)
    (mod_lt_M32 _)]
  simp [byteEvs, ackEvs, List.append_assoc, Nat.mod_add_mod, Nat.add_assoc]

set_option maxHeartbeats 2000000 in
theorem drive_tail39 (n : Nat) (s : St) (hph : s.m_phase = 5)
    (hc : s.m_counter = 0) (hbc : s.m_bit_count = 0)
    (hl : s.m_lastUpdateMicros < M32) :
    drive (n + 39) s
      = ((drive n { s with
            m_phase := 8
            m_counter := 255
            m_byte := (0x80 + (s.m_brightness &&& 0x0f)) >>> 8
            m_bit_count := 0
            m_lastUpdateMicros := (s.m_lastUpdateMicros + 1950) % M32 }).1,
         (stopEvs ++ startEvs ++ byteEvs (0x80 + (s.m_brightness &&& 0x0f))
            ++ stopEvs)
           ++ (drive n { s with
            m_phase := 8
            m_counter := 255
            m_byte := (0x80 + (s.m_brightness &&& 0x0f)) >>> 8
            m_bit_count := 0
            m_lastUpdateMicros := (s.m_lastUpdateMicros + 1950) % M32 }).2) := by
  rw [show n + 39 = (n + 36) + 3 by ring]
  rw [drive_stop3 (n + 36) s (Or.inr (Or.inl hph)) hc hl]
  rw [show n + 36 = (n + 35) + 1 by ring]
  rw [drive_stopDone5 (n + 35) _ (by exact hph) (by rfl) (mod_lt_M32 _)]
  rw [show n + 35 = (n + 32) + 3 by ring]
  rw [drive_start (n + 32) _ (by exact Or.inr rfl) (by rfl) (mod_lt_M32 _)]
  rw [show n + 32 = (n + 5) + 27 by ring]
  rw [drive_byte27 (n + 5) _ (by exact Or.inr (Or.inr (Or.inr rfl))) (by rfl)
    (by exact hbc) (mod_lt_M32 _)]
  rw [show n + 5 = (n + 4) + 1 by ring]
  rw [drive_byteDone7 (n + 4) _ (by rfl) (by rfl) (mod_lt_M32 _)]
  rw [show n + 4 = (n + 1) + 3 by ring]
  rw [drive_stop3 (n + 1) _ (by exact Or.inr (Or.inr rfl)) (by rfl)
    (mod_lt_M32 _)]
  rw [drive_stopDone8 n _ (by rfl) (by rfl) (mod_lt_M32 _)]
  simp [byteEvs, ackEvs, stopEvs, startEvs, List.append_assoc,
    Nat.mod_add_mod, Nat.add_assoc]




set_option maxHeartbeats 2000000 in
theorem drive_dataLoop (k : Nat) : ∀ (n : Nat) (s : St),
    s.m_phase = 4 → s.m_counter = 0 → s.m_bit_count = 0 →
    s.m_currentSegment + k = s.m_length → 0 < k →
    s.m_byte = segGet s s.m_currentSegment →
    s.m_lastUpdateMicros < M32 →
    drive (n + 28 * k) s
      = ((drive n { s with
            m_phase := 5
            m_counter := 0
            m_bit_count := 0
            m_currentSegment := s.m_length
            m_byte := segGet s (s.m_length - 1) >>> 8
            m_lastUpdateMicros := (s.m_lastUpdateMicros + 1400 * k) % M32 }).1,
         (List.range' s.m_currentSegment k).flatMap (fun i => byteEvs (segGet s i))
           ++ (drive n { s with
            m_phase := 5
            m_counter := 0
            m_bit_count := 0
            m_currentSegment := s.m_length
            m_byte := segGet s (s.m_length - 1) >>> 8
            m_lastUpdateMicros := (s.m_lastUpdateMicros + 1400 * k) % M32 }).2) := by
  induction k with
  | zero => intro n s _ _ _ _ hk _ _; exact absurd hk (lt_irrefl 0)
  | succ k ih =>
    intro n s hph hc hbc hcs hk hbyte hl
    by_cases hk0 : k = 0
    · subst hk0
      rw [Nat.mul_one]
      rw [drive_dataByte_last n s hph hc hbc (by omega) hl]
      have e1 : s.m_currentSegment + 1 = s.m_length := by omega
      have e2 : s.m_currentSegment = s.m_length - 1 := by omega
      rw [hbyte, e1, e2]
      simp [List.range']
    · have hkpos : 0 < k := Nat.pos_of_ne_zero hk0
      rw [show n + 28 * (k + 1) = (n + 28 * k) + 28 by ring]
      rw [drive_dataByte_more (n + 28 * k) s hph hc hbc (by omega) hl]
      rw [ih n _ (by exact hph) (by rfl) (by rfl) (by simp; omega) hkpos
        (by rfl) (mod_lt_M32 _)]
      have e2 : ((s.m_lastUpdateMicros + 1400) % M32 + 1400 * k) % M32
          = (s.m_lastUpdateMicros + 1400 * (k + 1)) % M32 := by
        unfold M32; omega
      simp only [e2, segGet]
      simp [List.range', List.append_assoc, hbyte, segGet]



theorem flatMap_congr {α β : Type} (l : List α) (f g : α → List β)
    (h : ∀ a ∈ l, f a = g a) : l.flatMap f = l.flatMap g := by
  induction l with
  | nil => rfl
  | cons a l ih =>
    simp only [List.flatMap_cons]
    rw [h a (List.mem_cons_self a l), ih fun b hb => h b (List.mem_cons_of_mem a hb)]

set_option maxHeartbeats 2000000 in
theorem drive_transmission (s : St) (hph : s.m_phase = 0)
    (hc : s.m_counter = 0) (hbc : s.m_bit_count = 0)
    (hlen1 : 1 ≤ s.m_length) (hl : s.m_lastUpdateMicros < M32) :
    (drive (102 + 28 * s.m_length) s).1.m_counter = 255 ∧
    (drive (102 + 28 * s.m_length) s).2
      = byteEvs s.m_byte ++ (stopEvs ++ (startEvs
        ++ (byteEvs (0xC0 + (s.m_pos &&& 0x03))
        ++ ((List.range s.m_length).flatMap (fun i => byteEvs (segGet s i))
        ++ (stopEvs ++ (startEvs
        ++ (byteEvs (0x80 + (s.m_brightness &&& 0x0f))
        ++ stopEvs))))))) := by
  rw [show 102 + 28 * s.m_length = (39 + 28 * s.m_length) + 63 by ring]
  rw [drive_head63 (39 + 28 * s.m_length) s hph hc hbc (by omega) hl]
  rw [drive_dataLoop s.m_length 39 _ (by rfl) (by rfl) (by rfl) (by simp)
    (by omega) (by rfl) (mod_lt_M32 _)]
  rw [show (39 : Nat) = 0 + 39 by norm_num]
  rw [drive_tail39 0 _ (by rfl) (by rfl) (by rfl) (mod_lt_M32 _)]
  refine ⟨rfl, ?_⟩
  simp [drive, segGet, List.range_eq_range', List.append_assoc]



set_option maxHeartbeats 2000000 in
/-- Claim C1: for every segment array of length 1-4 and every position,
`setSegments` followed by repeated `advance` calls until idle produces exactly
the fixed 9-phase wire trace: (after the documented bus-recovery stop) START,
byte 0x40 (8 bits LSB-first + ACK), STOP, START, byte 0xC0|(P&3), the L
segment bytes, STOP, START, byte 0x80|(brightness&0xF), STOP. -/
theorem setSegments_wire_trace (s : St) (segs : List Nat) (len pos us ms : Nat)
    (h1 : 1 ≤ len) (h4 : len ≤ 4) :
    (drive (102 + 28 * len) (setSegmentsF s segs len pos us ms).1).1.m_counter
        = 255 ∧
    (setSegmentsF s segs len pos us ms).2
        ++ (drive (102 + 28 * len) (setSegmentsF s segs len pos us ms).1).2
      = stopEvs ++ (driveLowEvs Pin.dio
        ++ (byteEvs 0x40 ++ (stopEvs ++ (startEvs
        ++ (byteEvs (0xC0 + (pos &&& 0x03))
        ++ ((List.range len).flatMap (fun i => byteEvs (segs.getD i 0))
        ++ (stopEvs ++ (startEvs
        ++ (byteEvs (0x80 + (s.m_brightness &&& 0x0f))
        ++ stopEvs))))))))) := by
  have hmin : min len 4 = len := by omega
  rw [setSegmentsF_eq]
  simp only [hmin]
  have h := drive_transmission
    { s with
      m_segments := fun i => if i.val < len then segs.getD i.val 0 % 256 else 0
      m_length := len
      m_pos := pos % 256
      m_counter := 0
      m_phase := 0
      m_byte := 0x40
      m_bit_count := 0
      m_lastUpdateMicros := us % M32
      m_transmissionStartMillis := ms % M32 }
    (by rfl) (by rfl) (by rfl) (by simpa using h1) (mod_lt_M32 us)
  simp only at h
  refine ⟨h.1, ?_⟩
  rw [List.append_assoc, h.2]
  have hseg : ∀ i ∈ List.range len,
      byteEvs (segGet { s with
        m_segments := fun i => if i.val < len then segs.getD i.val 0 % 256 else 0
        m_length := len
        m_pos := pos % 256
        m_counter := 0
        m_phase := 0
        m_byte := 0x40
        m_bit_count := 0
        m_lastUpdateMicros := us % M32
        m_transmissionStartMillis := ms % M32 } i)
        = byteEvs (segs.getD i 0) := by
    intro i hi
    rw [List.mem_range] at hi
    have hi4 : i < 4 := by omega
    simp only [segGet, hi4, dif_pos, hi, if_pos]
    exact byteEvs_mod _
  rw [flatMap_congr _ _ _ hseg]
  have hpos : pos % 256 &&& 3 = pos &&& 3 := and3_mod256 pos
  simp [hpos, List.append_assoc]

/-- Witness for claim C1 at a concrete two-byte transmission. -/
theorem setSegments_wire_trace_witness :
    (drive (102 + 28 * 2) (setSegmentsF freshSt [0xAB, 0x3C] 2 1 7 13).1).1.m_counter
        = 255 ∧
    (setSegmentsF freshSt [0xAB, 0x3C] 2 1 7 13).2
        ++ (drive (102 + 28 * 2) (setSegmentsF freshSt [0xAB, 0x3C] 2 1 7 13).1).2
      = stopEvs ++ (driveLowEvs Pin.dio
        ++ (byteEvs 0x40 ++ (stopEvs ++ (startEvs
        ++ (byteEvs (0xC0 + (1 &&& 0x03))
        ++ ((List.range 2).flatMap (fun i => byteEvs ([0xAB, 0x3C].getD i 0))
        ++ (stopEvs ++ (startEvs
        ++ (byteEvs (0x80 + (freshSt.m_brightness &&& 0x0f))
        ++ stopEvs))))))))) :=
  setSegments_wire_trace freshSt [0xAB, 0x3C] 2 1 7 13 (by decide) (by decide)


set_option maxRecDepth 10000 in
theorem dotbits : ∀ d, d < 256 →
    (d &&& 128 = if d >>> 7 % 2 = 1 then 128 else 0) ∧
    (d <<< 1 % 256 &&& 128 = if d >>> 6 % 2 = 1 then 128 else 0) ∧
    ((d <<< 1 % 256) <<< 1 % 256 &&& 128
      = if d >>> 5 % 2 = 1 then 128 else 0) ∧
    (((d <<< 1 % 256) <<< 1 % 256) <<< 1 % 256 &&& 128
      = if d >>> 4 % 2 = 1 then 128 else 0) := by decide

theorem showNumberBaseEx_dots_aux (base : Int) (num dots : Nat) (lz : Bool)
    (length : Nat) (init : Fin 4 → Nat) (i : Fin 4)
    (hd : dots < 256) (hnz : dots ≠ 0) (h : ¬(num = 0 ∧ lz = false)) :
    showNumberBaseExDigits base num dots lz length init i
      = showNumberBaseExDigits base num 0 lz length init i
        ||| (if (dots >>> (7 - i.val)) &&& 1 = 1 then 0x80 else 0) := by
  unfold showNumberBaseExDigits
  rw [if_neg h, if_neg h]
  simp only [ne_eq, not_true_eq_false, if_neg, ite_not]
  obtain ⟨h0, h1, h2, h3⟩ := dotbits dots hd
  have v0 : ((0 : Fin 4)).val = 0 := rfl
  have v1 : ((1 : Fin 4)).val = 1 := rfl
  have v2 : ((2 : Fin 4)).val = 2 := rfl
  have v3 : ((3 : Fin 4)).val = 3 := rfl
  obtain ⟨iv, hiv⟩ := i
  interval_cases iv <;>
    simp [showDots, updAt, hnz, h0, h1, h2, h3, v0, v1, v2, v3]



theorem digitsLoop_succ (b : Nat) (lz : Bool) (i num : Nat) (neg : Bool)
    (d : Fin 4 → Nat) :
    digitsLoop b lz (i + 1) num neg d
      = if num % b = 0 ∧ num = 0 ∧ neg then
          digitsLoop b lz i (num / b) false (updAt i minusSegments d)
        else digitsLoop b lz i (num / b) neg
          (updAt i (if num % b = 0 ∧ num = 0 ∧ lz = false then 0
                    else encodeDigit (num % b)) d) := rfl

/-- Claim C6 (amended): whenever the displayed magnitude is not the
zero-suppressed zero (the branch in which the code ignores the dot mask),
the digit array produced with a non-zero dot mask equals the array produced
with a zero mask except that bit 7 is OR-ed into digit `i` exactly when bit
`7 - i` of the mask is set — for both the decimal and the hex entry point. -/
theorem showNumberEx_dots (numd : Int) (numh dots : Nat) (lz : Bool)
    (length : Nat) (init : Fin 4 → Nat) (i : Fin 4)
    (hd : dots < 256) (hnz : dots ≠ 0)
    (hdec : ¬((if numd < 0 then -numd else numd).toNat % 65536 = 0
              ∧ lz = false))
    (hhex : ¬(numh % 65536 = 0 ∧ lz = false)) :
    (showNumberDecExDigits numd dots lz length init i
      = showNumberDecExDigits numd 0 lz length init i
        ||| (if (dots >>> (7 - i.val)) &&& 1 = 1 then 0x80 else 0)) ∧
    (showNumberHexExDigits numh dots lz length init i
      = showNumberHexExDigits numh 0 lz length init i
        ||| (if (dots >>> (7 - i.val)) &&& 1 = 1 then 0x80 else 0)) :=
  ⟨showNumberBaseEx_dots_aux _ _ _ _ _ _ _ hd hnz hdec,
   showNumberBaseEx_dots_aux _ _ _ _ _ _ _ hd hnz hhex⟩

/-- Witness for claim C6's amended theorem at concrete inputs. -/
theorem showNumberEx_dots_witness :
    (showNumberDecExDigits 1234 160 false 4 (fun _ => 0) 0
      = showNumberDecExDigits 1234 0 false 4 (fun _ => 0) 0
        ||| (if ((160 : Nat) >>> (7 - (0 : Fin 4).val)) &&& 1 = 1
             then 0x80 else 0)) ∧
    (showNumberHexExDigits 0xBEE 160 false 4 (fun _ => 0) 0
      = showNumberHexExDigits 0xBEE 0 false 4 (fun _ => 0) 0
        ||| (if ((160 : Nat) >>> (7 - (0 : Fin 4).val)) &&& 1 = 1
             then 0x80 else 0)) :=
  showNumberEx_dots 1234 0xBEE 160 false 4 (fun _ => 0) 0 (by decide)
    (by decide) (by decide) (by decide)

/-- Claim C6 counterexample: for value 0 with `leading_zero = false` and the
dot mask 0x80, the produced array ignores the mask (digit 0 lacks bit 7),
contradicting the claim as stated for every value. -/
theorem showNumberDecEx_dots_counterexample :
    showNumberDecExDigits 0 0x80 false 4 (fun _ => 0) 0
      ≠ showNumberDecExDigits 0 0 false 4 (fun _ => 0) 0
        ||| (if ((0x80 : Nat) >>> (7 - (0 : Fin 4).val)) &&& 1 = 1
             then 0x80 else 0) := by decide




set_option maxHeartbeats 1000000 in
theorem showNumberDec_neg_general (init : Fin 4 → Nat) (v : Int) (k : Nat)
    (j : Fin 4) (hv : v < 0) (hk1 : 1 ≤ k) (hk3 : k ≤ 3)
    (hlo : 10 ^ (k - 1) ≤ v.natAbs) (hhi : v.natAbs < 10 ^ k) :
    showNumberDecDigits v false 4 init j
      = if j.val < 3 - k then 0
        else if j.val = 3 - k then minusSegments
        else encodeDigit (v.natAbs / 10 ^ (3 - j.val) % 10) := by
  unfold showNumberDecDigits showNumberDecExDigits showNumberBaseExDigits
  simp only [if_pos hv]
  interval_cases k
  · -- k = 1
    norm_num at hlo hhi
    have hm : (-v).toNat % 65536 = v.natAbs := by omega
    rw [hm]
    have hm0 : ¬(v.natAbs = 0) := by omega
    rw [if_neg (by simp [hm0])]
    simp only [show ((0:Nat) ≠ 0) = False by simp, if_false,
      show ((-10 : Int)).natAbs = 10 from rfl,
      show (decide ((-10 : Int) < 0)) = true from rfl]
    rw [digitsLoop_succ 10 false 3 (v.natAbs) true _]
    rw [if_neg (show ¬(v.natAbs % 10 = 0 ∧ v.natAbs = 0 ∧ true = true) from fun h => by omega)]
    rw [if_neg (show ¬(v.natAbs % 10 = 0 ∧ v.natAbs = 0 ∧ false = false) from fun h => by omega)]
    rw [digitsLoop_succ 10 false 2 (v.natAbs / 10) true _]
    rw [if_pos (show (v.natAbs / 10 % 10 = 0 ∧ v.natAbs / 10 = 0 ∧ true = true) from by refine ⟨by omega, by omega, rfl⟩)]
    rw [digitsLoop_succ 10 false 1 (v.natAbs / 10 / 10) false _]
    rw [if_neg (show ¬(v.natAbs / 10 / 10 % 10 = 0 ∧ v.natAbs / 10 / 10 = 0 ∧ false = true) from by simp)]
    rw [if_pos (show (v.natAbs / 10 / 10 % 10 = 0 ∧ v.natAbs / 10 / 10 = 0 ∧ false = false) from by refine ⟨by omega, by omega, rfl⟩)]
    rw [digitsLoop_succ 10 false 0 (v.natAbs / 10 / 10 / 10) false _]
    rw [if_neg (show ¬(v.natAbs / 10 / 10 / 10 % 10 = 0 ∧ v.natAbs / 10 / 10 / 10 = 0 ∧ false = true) from by simp)]
    rw [if_pos (show (v.natAbs / 10 / 10 / 10 % 10 = 0 ∧ v.natAbs / 10 / 10 / 10 = 0 ∧ false = false) from by refine ⟨by omega, by omega, rfl⟩)]
    obtain ⟨jv, hj⟩ := j
    interval_cases jv <;>
      simp [digitsLoop, updAt, Nat.div_one, Nat.div_div_eq_div_mul]
  · -- k = 2
    norm_num at hlo hhi
    have hm : (-v).toNat % 65536 = v.natAbs := by omega
    rw [hm]
    have hm0 : ¬(v.natAbs = 0) := by omega
    rw [if_neg (by simp [hm0])]
    simp only [show ((0:Nat) ≠ 0) = False by simp, if_false,
      show ((-10 : Int)).natAbs = 10 from rfl,
      show (decide ((-10 : Int) < 0)) = true from rfl]
    rw [digitsLoop_succ 10 false 3 (v.natAbs) true _]
    rw [if_neg (show ¬(v.natAbs % 10 = 0 ∧ v.natAbs = 0 ∧ true = true) from fun h => by omega)]
    rw [if_neg (show ¬(v.natAbs % 10 = 0 ∧ v.natAbs = 0 ∧ false = false) from fun h => by omega)]
    rw [digitsLoop_succ 10 false 2 (v.natAbs / 10) true _]
    rw [if_neg (show ¬(v.natAbs / 10 % 10 = 0 ∧ v.natAbs / 10 = 0 ∧ true = true) from fun h => by omega)]
    rw [if_neg (show ¬(v.natAbs / 10 % 10 = 0 ∧ v.natAbs / 10 = 0 ∧ false = false) from fun h => by omega)]
    rw [digitsLoop_succ 10 false 1 (v.natAbs / 10 / 10) true _]
    rw [if_pos (show (v.natAbs / 10 / 10 % 10 = 0 ∧ v.natAbs / 10 / 10 = 0 ∧ true = true) from by refine ⟨by omega, by omega, rfl⟩)]
    rw [digitsLoop_succ 10 false 0 (v.natAbs / 10 / 10 / 10) false _]
    rw [if_neg (show ¬(v.natAbs / 10 / 10 / 10 % 10 = 0 ∧ v.natAbs / 10 / 10 / 10 = 0 ∧ false = true) from by simp)]
    rw [if_pos (show (v.natAbs / 10 / 10 / 10 % 10 = 0 ∧ v.natAbs / 10 / 10 / 10 = 0 ∧ false = false) from by refine ⟨by omega, by omega, rfl⟩)]
    obtain ⟨jv, hj⟩ := j
    interval_cases jv <;>
      simp [digitsLoop, updAt, Nat.div_one, Nat.div_div_eq_div_mul]
  · -- k = 3
    norm_num at hlo hhi
    have hm : (-v).toNat % 65536 = v.natAbs := by omega
    rw [hm]
    have hm0 : ¬(v.natAbs = 0) := by omega
    rw [if_neg (by simp [hm0])]
    simp only [show ((0:Nat) ≠ 0) = False by simp, if_false,
      show ((-10 : Int)).natAbs = 10 from rfl,
      show (decide ((-10 : Int) < 0)) = true from rfl]
    rw [digitsLoop_succ 10 false 3 (v.natAbs) true _]
    rw [if_neg (show ¬(v.natAbs % 10 = 0 ∧ v.natAbs = 0 ∧ true = true) from fun h => by omega)]
    rw [if_neg (show ¬(v.natAbs % 10 = 0 ∧ v.natAbs = 0 ∧ false = false) from fun h => by omega)]
    rw [digitsLoop_succ 10 false 2 (v.natAbs / 10) true _]
    rw [if_neg (show ¬(v.natAbs / 10 % 10 = 0 ∧ v.natAbs / 10 = 0 ∧ true = true) from fun h => by omega)]
    rw [if_neg (show ¬(v.natAbs / 10 % 10 = 0 ∧ v.natAbs / 10 = 0 ∧ false = false) from fun h => by omega)]
    rw [digitsLoop_succ 10 false 1 (v.natAbs / 10 / 10) true _]
    rw [if_neg (show ¬(v.natAbs / 10 / 10 % 10 = 0 ∧ v.natAbs / 10 / 10 = 0 ∧ true = true) from fun h => by omega)]
    rw [if_neg (show ¬(v.natAbs / 10 / 10 % 10 = 0 ∧ v.natAbs / 10 / 10 = 0 ∧ false = false) from fun h => by omega)]
    rw [digitsLoop_succ 10 false 0 (v.natAbs / 10 / 10 / 10) true _]
    rw [if_pos (show (v.natAbs / 10 / 10 / 10 % 10 = 0 ∧ v.natAbs / 10 / 10 / 10 = 0 ∧ true = true) from by refine ⟨by omega, by omega, rfl⟩)]
    obtain ⟨jv, hj⟩ := j
    interval_cases jv <;>
      simp [digitsLoop, updAt, Nat.div_one, Nat.div_div_eq_div_mul]



set_option maxHeartbeats 1000000 in
/-- Claim C8 (amended): `displayCharAndNumber` implements the fixed
three-tier policy on `|v|`: values below 1000 shown plainly, right-aligned
and blank-padded, with a minus segment substituted when the value is negative
and `|v| < 100`; values 1000-9999 shown as first significant digit with the
decimal-point bit, second significant digit, and the 'K' glyph; values at or
above 10000 shown as the three decimal digits of `|v| / 100` truncated mod
1000, with the dot on the middle one — which for `|v| ≤ 99999` are the first
two significant digits of `|v|` followed by its third digit. -/
theorem displayCharAndNumber_tiers (c : Char) (v : Int) (j : Fin 4) :
    (v.natAbs ≤ 999 →
      displayCharAndNumberSegs c v j
        = if j.val = 0 then charToSeg c
          else if j.val = 1 then
            (if v < 0 ∧ v.natAbs < 100 then SEG_G
             else if 100 ≤ v.natAbs then encodeDigit (v.natAbs / 100) else 0)
          else if j.val = 2 then
            (if 10 ≤ v.natAbs then encodeDigit (v.natAbs / 10 % 10) else 0)
          else encodeDigit (v.natAbs % 10)) ∧
    (1000 ≤ v.natAbs → v.natAbs ≤ 9999 →
      displayCharAndNumberSegs c v j
        = if j.val = 0 then charToSeg c
          else if j.val = 1 then encodeDigit (v.natAbs / 1000) ||| SEG_DP
          else if j.val = 2 then encodeDigit (v.natAbs / 100 % 10)
          else charToSeg 'K') ∧
    (10000 ≤ v.natAbs →
      displayCharAndNumberSegs c v j
        = if j.val = 0 then charToSeg c
          else if j.val = 1 then encodeDigit (v.natAbs / 10000 % 10)
          else if j.val = 2 then encodeDigit (v.natAbs / 1000 % 10) ||| SEG_DP
          else encodeDigit (v.natAbs / 100 % 10)) ∧
    (10000 ≤ v.natAbs → v.natAbs ≤ 99999 →
      displayCharAndNumberSegs c v j
        = if j.val = 0 then charToSeg c
          else if j.val = 1 then encodeDigit (v.natAbs / 10000)
          else if j.val = 2 then encodeDigit (v.natAbs / 1000 % 10) ||| SEG_DP
          else encodeDigit (v.natAbs / 100 % 10)) := by
  unfold displayCharAndNumberSegs
  obtain ⟨jv, hj⟩ := j
  refine ⟨fun h999 => ?_, fun h1000 h9999 => ?_, fun h10000 => ?_,
    fun h10000 h99999 => ?_⟩
  · rw [if_neg (by omega), if_neg (by omega)]
    have e1 : v.natAbs / 100 % 10 = v.natAbs / 100 := by omega
    interval_cases jv <;> simp [e1]
  · rw [if_neg (by omega), if_pos h1000]
    have e1 : v.natAbs / 100 / 10 % 10 = v.natAbs / 1000 := by
      rw [Nat.div_div_eq_div_mul]
      norm_num
      omega
    have e2 : v.natAbs / 100 % 10 = v.natAbs / 100 % 10 := rfl
    interval_cases jv <;> simp [e1]
  · rw [if_pos h10000]
    have e1 : v.natAbs / 100 / 100 % 10 = v.natAbs / 10000 % 10 := by
      rw [Nat.div_div_eq_div_mul]
    have e2 : v.natAbs / 100 / 10 % 10 = v.natAbs / 1000 % 10 := by
      rw [Nat.div_div_eq_div_mul]
    interval_cases jv <;> simp [e1, e2]
  · rw [if_pos h10000]
    have e1 : v.natAbs / 100 / 100 % 10 = v.natAbs / 10000 := by
      rw [Nat.div_div_eq_div_mul]
      norm_num
      omega
    have e2 : v.natAbs / 100 / 10 % 10 = v.natAbs / 1000 % 10 := by
      rw [Nat.div_div_eq_div_mul]
    interval_cases jv <;> simp [e1, e2]



/-- Claim C7: with `leading_zero = false`, length 4, position 0:
value 0 yields `{0, 0, 0, encodeDigit 0}`; value -5 yields
`{0, 0, minusSegments, encodeDigit 5}`; and in general, for every negative
value whose magnitude has `k < 4` decimal digits, the minus segment occupies
position `3 - k` (immediately left of the most significant magnitude digit),
with blanks to its left and the magnitude digits to its right. -/
theorem showNumberDec_zero_neg (init : Fin 4 → Nat) :
    (∀ j : Fin 4, showNumberDecDigits 0 false 4 init j
        = if j.val = 3 then encodeDigit 0 else 0) ∧
    (∀ j : Fin 4, showNumberDecDigits (-5) false 4 init j
        = if j.val = 3 then encodeDigit 5
          else if j.val = 2 then minusSegments else 0) ∧
    (∀ (v : Int) (k : Nat) (j : Fin 4), v < 0 → 1 ≤ k → k ≤ 3 →
        10 ^ (k - 1) ≤ v.natAbs → v.natAbs < 10 ^ k →
        showNumberDecDigits v false 4 init j
          = if j.val < 3 - k then 0
            else if j.val = 3 - k then minusSegments
            else encodeDigit (v.natAbs / 10 ^ (3 - j.val) % 10)) := by
  refine ⟨?_, ?_,
    fun v k j hv h1 h3 hlo hhi =>
      showNumberDec_neg_general init v k j hv h1 h3 hlo hhi⟩
  · intro j
    obtain ⟨jv, hj⟩ := j
    interval_cases jv <;> rfl
  · intro j
    obtain ⟨jv, hj⟩ := j
    interval_cases jv <;> rfl

/-- Witness for claim C7 at value -42 (two digits). -/
theorem showNumberDec_zero_neg_witness :
    showNumberDecDigits (-42) false 4 (fun _ => 7) ⟨1, by omega⟩
      = if (1 : Nat) < 3 - 2 then 0
        else if (1 : Nat) = 3 - 2 then minusSegments
        else encodeDigit ((-42 : Int).natAbs / 10 ^ (3 - 1) % 10) :=
  (showNumberDec_zero_neg (fun _ => 7)).2.2 (-42) 2 ⟨1, by omega⟩ (by decide)
    (by decide) (by decide) (by decide) (by decide)

/-- Claim C8 counterexample: at ('F', 100000) the claim's "first two
significant digits" (1 and 0) are not what the code shows — the digit at
position 1 is `encodeDigit 0`, not the leading significant digit 1. -/
theorem displayCharAndNumber_counterexample :
    10000 ≤ (100000 : Int).natAbs ∧
    sigDigit (100000 : Int).natAbs 1 = 1 ∧
    sigDigit (100000 : Int).natAbs 2 = 0 ∧
    displayCharAndNumberSegs 'F' 100000 ⟨1, by omega⟩ = encodeDigit 0 ∧
    encodeDigit 0 ≠ encodeDigit (sigDigit (100000 : Int).natAbs 1) := by
  decide

/-- Witness for claim C8's amended theorem at ('F', 1024). -/
theorem displayCharAndNumber_tiers_witness :
    displayCharAndNumberSegs 'F' 1024 ⟨3, by omega⟩
      = if (3 : Nat) = 0 then charToSeg 'F'
        else if (3 : Nat) = 1 then
          encodeDigit ((1024 : Int).natAbs / 1000) ||| SEG_DP
        else if (3 : Nat) = 2 then
          encodeDigit ((1024 : Int).natAbs / 100 % 10)
        else charToSeg 'K' :=
  (displayCharAndNumber_tiers 'F' 1024 ⟨3, by omega⟩).2.1 (by decide)
    (by decide)


theorem okPair_of_not_output (e e' : Ev) (h : isOutputSet e = false) :
    okPair e e' = true := by
  cases e with
  | pinMode p m =>
    cases m with
    | output => simp [isOutputSet] at h
    | inputPullup => cases e' <;> rfl
  | digitalWrite p v => cases e' <;> rfl

theorem pairedLow_append (l1 l2 : List Ev) (h1 : pairedLow l1 = true)
    (h2 : pairedLow l2 = true) : pairedLow (l1 ++ l2) = true := by
  induction l1 with
  | nil => simpa using h2
  | cons e rest ih =>
    cases rest with
    | nil =>
      cases l2 with
      | nil => simpa using h1
      | cons e2 l2' =>
        simp only [List.singleton_append, pairedLow]
        simp only [pairedLow] at h1
        rw [okPair_of_not_output e e2 (by simpa using h1), h2]
        rfl
    | cons e' rest' =>
      simp only [List.cons_append, pairedLow] at h1 ⊢
      rw [Bool.and_eq_true] at h1
      have h3 := ih h1.2
      simp only [List.cons_append] at h3
      rw [h1.1]
      simpa using h3

theorem evsSafe_append (l1 l2 : List Ev) (h1 : evsSafe l1 = true)
    (h2 : evsSafe l2 = true) : evsSafe (l1 ++ l2) = true := by
  unfold evsSafe at *
  rw [Bool.and_eq_true] at h1 h2
  rw [List.all_append, h1.1, h2.1, pairedLow_append l1 l2 h1.2 h2.2]
  rfl

theorem writeBitF_evsSafe (s : St) : evsSafe (writeBitF s).2.1 = true := by
  unfold writeBitF
  split_ifs <;> rfl

theorem startConditionF_evsSafe (s : St) :
    evsSafe (startConditionF s).2.1 = true := by
  unfold startConditionF
  split_ifs <;> rfl

theorem stopConditionF_evsSafe (s : St) :
    evsSafe (stopConditionF s).2.1 = true := by
  unfold stopConditionF
  split_ifs <;> rfl

set_option maxHeartbeats 2000000 in
theorem stepMachine_evsSafe (s : St) : evsSafe (stepMachine s).2.1 = true := by
  have hwb := writeBitF_evsSafe s
  have hsta := startConditionF_evsSafe s
  have hsto := stopConditionF_evsSafe s
  unfold stepMachine
  rcases hq1 : writeBitF s with ⟨s1, ev1, d1⟩
  rcases hq2 : startConditionF s with ⟨s2, ev2, d2⟩
  rcases hq3 : stopConditionF s with ⟨s3, ev3, d3⟩
  rw [hq1] at hwb
  rw [hq2] at hsta
  rw [hq3] at hsto
  simp only at hwb hsta hsto
  clear hq1 hq2 hq3
  generalize s.m_phase = ph
  rcases ph with _|_|_|_|_|_|_|_|_|m <;>
    simp <;> (try split_ifs) <;>
    first | exact hwb | exact hsta | exact hsto | rfl

theorem update_evsSafe (s : St) (ms us : Nat) :
    evsSafe (update s ms us).2.1 = true := by
  unfold update
  split_ifs <;> first | rfl | exact stepMachine_evsSafe _

theorem setSegmentsF_evsSafe (s : St) (segs : List Nat)
    (len pos us ms : Nat) :
    evsSafe (setSegmentsF s segs len pos us ms).2 = true := by rfl

theorem reach_evsSafe (s : St) (tr : List Ev) (h : Reach s tr) :
    evsSafe tr = true := by
  induction h with
  | init => rfl
  | set s' tr' segs len pos us ms _ ih =>
    exact evsSafe_append _ _ ih (setSegmentsF_evsSafe s' segs len pos us ms)
  | adv s' tr' ms us _ ih =>
    exact evsSafe_append _ _ ih (update_evsSafe s' ms us)

theorem update_allLow (s : St) (ms us : Nat) :
    (update s ms us).2.1.all writeIsLow = true := by
  have h := update_evsSafe s ms us
  unfold evsSafe at h
  rw [Bool.and_eq_true] at h
  exact h.1

theorem all_writeIsLow_take (l : List Ev) (n : Nat)
    (h : l.all writeIsLow = true) : (l.take n).all writeIsLow = true := by
  rw [List.all_eq_true] at h ⊢
  intro x hx
  exact h x (List.mem_of_mem_take hx)

theorem reach_starts_init (s : St) (tr : List Ev) (h : Reach s tr) :
    ∃ rest, tr = initEvs ++ rest ∧ rest.all writeIsLow = true := by
  induction h with
  | init jseg jlen jpos jphase jbyte jbc jcs => exact ⟨[], by simp, rfl⟩
  | set s' tr' segs len pos us ms _ ih =>
    obtain ⟨r, hr, ha⟩ := ih
    refine ⟨r ++ (setSegmentsF s' segs len pos us ms).2,
      by rw [hr, List.append_assoc], ?_⟩
    rw [List.all_append, ha]
    rfl
  | adv s' tr' ms us _ ih =>
    obtain ⟨r, hr, ha⟩ := ih
    refine ⟨r ++ (update s' ms us).2.1, by rw [hr, List.append_assoc], ?_⟩
    rw [List.all_append, ha, update_allLow]
    rfl

theorem lineFold_latch_low (l : List Ev) : ∀ (st : LineSt),
    st.latchClk = Level.low → st.latchDio = Level.low →
    l.all writeIsLow = true →
    (lineFold st l).latchClk = Level.low ∧
    (lineFold st l).latchDio = Level.low := by
  induction l with
  | nil => exact fun st hc hd _ => ⟨hc, hd⟩
  | cons e rest ih =>
    intro st hc hd hw
    rw [List.all_cons, Bool.and_eq_true] at hw
    have hstep : (lineStep st e).latchClk = Level.low ∧
        (lineStep st e).latchDio = Level.low := by
      cases e with
      | pinMode p m => cases p <;> simp [lineStep, hc, hd]
      | digitalWrite p v =>
        have hv : v = Level.low := by
          cases v
          · rfl
          · simp [writeIsLow] at hw
        subst hv
        cases p <;> simp [lineStep, hc, hd]
    have := ih (lineStep st e) hstep.1 hstep.2 hw.2
    simpa [lineFold] using this

set_option maxHeartbeats 1000000 in
/-- Claim C9: in every GPIO trace reachable by any sequence of constructor,
setSegments and advance calls, every digitalWrite issued writes logic low,
every switch of a line to output mode is immediately preceded by a low write
on that line, and (for any initial latch values) the open-drain line model
never sees a line driven high: whenever a line's mode is output, its latch
is low, so a line only goes high by being released to input/pull-up. -/
theorem gpio_open_drain (s : St) (tr : List Ev) (h : Reach s tr) :
    tr.all writeIsLow = true ∧ pairedLow tr = true ∧
    ∀ lc ld : Level,
      neverDrivenHigh
        { latchClk := lc, latchDio := ld
          modeClk := PMode.inputPullup, modeDio := PMode.inputPullup } tr := by
  have hs := reach_evsSafe s tr h
  unfold evsSafe at hs
  rw [Bool.and_eq_true] at hs
  refine ⟨hs.1, hs.2, ?_⟩
  intro lc ld n
  obtain ⟨rest, hr, ha⟩ := reach_starts_init s tr h
  subst hr
  by_cases hn : n ≤ 4
  · interval_cases n <;>
      simp [lineFold, lineStep, initEvs, List.take]
  · rw [List.take_append_eq_append_take,
      List.take_of_length_le (show initEvs.length ≤ n by simp [initEvs]; omega)]
    unfold lineFold
    rw [List.foldl_append]
    have hlatch := lineFold_latch_low (rest.take (n - initEvs.length))
      (List.foldl lineStep
        { latchClk := lc, latchDio := ld
          modeClk := PMode.inputPullup, modeDio := PMode.inputPullup } initEvs)
      rfl rfl (all_writeIsLow_take rest _ ha)
    unfold lineFold at hlatch
    exact ⟨fun _ => hlatch.1, fun _ => hlatch.2⟩

/-- Witness for claim C9 on the constructor's trace. -/
theorem gpio_open_drain_witness :
    initEvs.all writeIsLow = true ∧ pairedLow initEvs = true ∧
    ∀ lc ld : Level,
      neverDrivenHigh
        { latchClk := lc, latchDio := ld
          modeClk := PMode.inputPullup, modeDio := PMode.inputPullup }
        initEvs :=
  gpio_open_drain freshSt initEvs (Reach.init (fun _ => 0) 0 0 0 0 0 0)

set_option maxHeartbeats 4000000 in
theorem stepMachine_inv (s : St) (h : EngineInv s) (hin : s.m_counter ≠ 255) :
    EngineInv (stepMachine s).1 := by
  obtain ⟨br, seg, len, pos, cnt, ph, byt, bc, cs, lu, ts⟩ := s
  simp only [EngineInv] at h ⊢
  simp only at hin
  rcases h with h255 | ⟨h1, h2, h3, h4, h5, h6⟩
  · exact absurd h255 hin
  · interval_cases ph <;> interval_cases cnt <;>
      simp_all [stepMachine, writeBitF, startConditionF, stopConditionF,
        segGet] <;>
      split_ifs <;> simp_all <;> omega

theorem update_inv (s : St) (ms us : Nat) (h : EngineInv s) :
    EngineInv (update s ms us).1 := by
  unfold update
  split_ifs with h1 h2 h3
  · exact h
  · exact Or.inl rfl
  · exact h
  · exact stepMachine_inv _ h h1

theorem setSegmentsF_inv (s : St) (segs : List Nat) (len pos us ms : Nat) :
    EngineInv (setSegmentsF s segs len pos us ms).1 := by
  rw [setSegmentsF_eq]
  right
  refine ⟨by simp [Nat.min_le_right], by simp, by simp, by simp, ?_, ?_⟩
  · intro _ _
    simp
  · intro hph
    simp at hph

theorem reach_engineInv (s : St) (tr : List Ev) (h : Reach s tr) :
    EngineInv s := by
  induction h with
  | init jseg jlen jpos jphase jbyte jbc jcs => exact Or.inl rfl
  | set s' tr' segs len pos us ms _ _ =>
    exact setSegmentsF_inv s' segs len pos us ms
  | adv s' tr' ms us _ ih => exact update_inv s' ms us ih

set_option maxHeartbeats 4000000 in
theorem stepMachine_segments_congr (s : St) (g : Fin 4 → Nat)
    (h : EngineInv s) (hin : s.m_counter ≠ 255)
    (hagree : ∀ i : Fin 4, i.val < s.m_length → s.m_segments i = g i) :
    stepMachine { s with m_segments := g }
      = ({ (stepMachine s).1 with m_segments := g }, (stepMachine s).2) := by
  obtain ⟨br, seg, len, pos, cnt, ph, byt, bc, cs, lu, ts⟩ := s
  simp only [EngineInv] at h
  simp only at hin hagree
  rcases h with h255 | ⟨h1, h2, h3, h4, h5, h6⟩
  · exact absurd h255 hin
  · interval_cases ph <;> interval_cases cnt <;>
      simp_all [stepMachine, writeBitF, startConditionF, stopConditionF,
        segGet] <;>
      split_ifs <;> simp_all

theorem update_segments_congr (s : St) (g : Fin 4 → Nat) (ms us : Nat)
    (h : EngineInv s)
    (hagree : ∀ i : Fin 4, i.val < s.m_length → s.m_segments i = g i) :
    update { s with m_segments := g } ms us
      = ({ (update s ms us).1 with m_segments := g }, (update s ms us).2) := by
  obtain ⟨br, seg, len, pos, cnt, ph, byt, bc, cs, lu, ts⟩ := s
  unfold update
  simp only
  split_ifs with h1 h2 h3
  · rfl
  · rfl
  · rfl
  · exact stepMachine_segments_congr
      { m_brightness := br
        m_segments := seg
        m_length := len
        m_pos := pos
        m_counter := cnt
        m_phase := ph
        m_byte := byt
        m_bit_count := bc
        m_currentSegment := cs
        m_lastUpdateMicros := us % M32
        m_transmissionStartMillis := ts } g h h1 hagree

/-- Claim C10 (amended): in every reachable engine state, whenever a
transmission is in flight (counter not 255) the stored length is at most 4,
the phase is in 0..8, the sub-step counter is at most 6 and the bit counter
is at most 8; `setSegments` clamps any caller-supplied length to at most 4;
and the segment array is only read at indices strictly below the stored
length, so `update` cannot observe entries at or beyond it.  (The original
unconditional "stored length ≤ 4" fails at the freshly constructed state,
whose uninitialized `m_length` is arbitrary junk; it only holds once a
transmission has been armed, and is then maintained.) -/
theorem engine_state_invariant (s : St) (tr : List Ev) (h : Reach s tr) :
    (s.m_counter ≠ 255 →
       s.m_length ≤ 4 ∧ s.m_phase ≤ 8 ∧ s.m_counter ≤ 6 ∧
         s.m_bit_count ≤ 8) ∧
    (∀ segs len pos us ms,
       (setSegmentsF s segs len pos us ms).1.m_length ≤ 4) ∧
    (∀ g ms us, (∀ i : Fin 4, i.val < s.m_length → s.m_segments i = g i) →
       update { s with m_segments := g } ms us
         = ({ (update s ms us).1 with m_segments := g },
            (update s ms us).2)) := by
  have hinv := reach_engineInv s tr h
  refine ⟨?_, ?_, ?_⟩
  · intro hin
    rcases hinv with h255 | ⟨h1, h2, h3, h4, _, _⟩
    · exact absurd h255 hin
    · exact ⟨h1, h2, h3, h4⟩
  · intro segs len pos us ms
    rw [setSegmentsF_eq]
    simp [Nat.min_le_right]
  · intro g ms us hagree
    exact update_segments_congr s g ms us hinv hagree

/-- Counterexample to the unconditional form of Claim C10: the constructor
does not initialize `m_length`, so a reachable state (the freshly
constructed driver with junk length 5) has stored length greater than 4. -/
theorem engine_inv_counterexample :
    ∃ s tr, Reach s tr ∧ 4 < s.m_length :=
  ⟨initSt (fun _ => 0) 5 0 0 0 0 0, initEvs,
    Reach.init (fun _ => 0) 5 0 0 0 0 0, by decide⟩

/-- Witness for Claim C10 at the concrete in-flight state `armedSt`. -/
theorem engine_state_invariant_witness :
    armedSt.m_length ≤ 4 ∧ armedSt.m_phase ≤ 8 ∧ armedSt.m_counter ≤ 6 ∧
      armedSt.m_bit_count ≤ 8 :=
  (engine_state_invariant armedSt
    (initEvs ++ (setSegmentsF freshSt [0xAB] 1 0 0 0).2)
    (Reach.set freshSt initEvs [0xAB] 1 0 0 0
      (Reach.init (fun _ => 0) 0 0 0 0 0 0))).1 (by decide)

end TM1637
